import Mathlib

/-!
# MeshSync server: message brokering core

A shallow embedding of `src/Plugin/MeshSync/msServer.cpp`.

* The server object is the record `Server`; every member function is a function on it.
* Code that lives outside the modelled file (wire format, URI decoding, geometry passes)
  is either a field of `Codec` or recorded symbolically (`GeomOp`).
* HTTP handlers return an `Outcome`: the server afterwards, the response written, and the
  sequence of observable steps (`Event`) the handler took.
* What other threads do while a handler sleeps in a bounded wait loop is an input (`WaitEnv`).
* The host callback of a poll is a `MessageHandler`: a transition on the host's own data
  that also says which lock-free member functions it calls on the server.
* A finite `float` is the rational it denotes; the modelled code only copies scale factors,
  compares them with `1.0f` and computes `1.0f / s`. The rounded quotient is a field of
  `Codec`; a quotient that is not finite (`s = 0`) is outside the model.
* `int` and `std::atomic_int` are 32 bits wide: `toInt32` is the conversion to `int`, and
  `++` / `--` on the request counter wrap around.
* Strings are sequences of characters; a character stands for a byte.
* Messages and scene objects are values. Where the code shares one object between the
  receive history, the entity directory and a blocked handler, a write made through one
  reference after the object was queued (wait flag, response slot) reaches the handler
  through `WaitEnv` only.
-/

namespace ms

/-! ## Scene data (declared in headers outside the modelled file; only members used here) -/

inductive Handedness where
  | Left | Right | LeftZUp | RightZUp
deriving DecidableEq, Repr

structure SceneSettings where
  handedness : Handedness
  scale_factor : Rat
deriving DecidableEq

structure RefineFlags where
  swap_handedness : Bool
  swap_yz : Bool
  triangulate : Bool
  split : Bool
  optimize_topology : Bool
deriving DecidableEq

structure RefineSettings where
  flags : RefineFlags
  scale_factor : Rat
  smooth_angle : Rat
  split_unit : Nat
deriving DecidableEq

/-- Calls into the geometry library, recorded instead of computed. -/
inductive GeomOp where
  | refine (rs : RefineSettings)
  | convertHandedness (x yz : Bool)
  | applyScaleFactor (scale : Rat)
deriving DecidableEq

inductive EntityType where
  | Transform | Camera | Light | Mesh
deriving DecidableEq, Repr

/-- A scene object (`TransformPtr`). `applied` lists the geometry passes run on it, oldest first. -/
structure Transform where
  path : String
  type : EntityType
  has_refine_settings : Bool
  refine_settings : RefineSettings
  applied : List GeomOp
deriving DecidableEq

structure Animation where
  applied : List GeomOp
deriving DecidableEq

structure AnimationClip where
  animations : List Animation
deriving DecidableEq

structure Scene where
  settings : SceneSettings
  objects : List Transform
  animations : List AnimationClip
deriving DecidableEq

/-! ## Messages -/

structure GetMessage where
  scene_settings : SceneSettings
  refine_settings : RefineSettings
  wait_flag : Option Int
deriving DecidableEq

structure SetMessage where
  scene : Scene
deriving DecidableEq

structure Identifier where
  path : String
deriving DecidableEq

structure DeleteMessage where
  targets : List Identifier
deriving DecidableEq

inductive FenceType where
  | Unknown | SceneBegin | SceneEnd
deriving DecidableEq, Repr

structure FenceMessage where
  type : FenceType
deriving DecidableEq

inductive TextType where
  | Normal | Error
deriving DecidableEq, Repr

structure TextMessage where
  text : String
  type : TextType
deriving DecidableEq

structure ScreenshotMessage where
  wait_flag : Option Int
deriving DecidableEq

structure ResponseMessage where
  data : String
deriving DecidableEq

structure QueryMessage where
  query : String
  wait_flag : Option Int
  response : Option ResponseMessage
deriving DecidableEq

/-- The dynamic type of a `MessagePtr`. -/
inductive Message where
  | get (m : GetMessage)
  | set (m : SetMessage)
  | delete (m : DeleteMessage)
  | fence (m : FenceMessage)
  | text (m : TextMessage)
  | screenshot (m : ScreenshotMessage)
  | query (m : QueryMessage)
deriving DecidableEq

/-- The tag `Message::Type` passed to the host callback. -/
inductive MessageType where
  | Get | Set | Delete | Fence | Text | Screenshot | Query
deriving DecidableEq, Repr

/-- The tag that belongs to each message variant. -/
def Message.kind : Message → MessageType
  | .get _ => .Get
  | .set _ => .Set
  | .delete _ => .Delete
  | .fence _ => .Fence
  | .text _ => .Text
  | .screenshot _ => .Screenshot
  | .query _ => .Query

/-! ## The entity directory: `std::map<std::string, TransformPtr>`

Modelled as an association list.  The code never iterates the map, so only look-ups
are observable. -/

/-- Look-up, `m.find(p)`. -/
def ClientObjs.find : List (String × Transform) → String → Option Transform
  | [], _ => none
  | (k, v) :: rest, p => if k = p then some v else ClientObjs.find rest p

/-- Removal, `m.erase(p)`. -/
def ClientObjs.erase : List (String × Transform) → String → List (String × Transform)
  | [], _ => []
  | (k, v) :: rest, p =>
    if k = p then ClientObjs.erase rest p else (k, v) :: ClientObjs.erase rest p

/-- Assignment, `m[p] = o`: replaces the binding of `p` or adds one. -/
def ClientObjs.assign : List (String × Transform) → String → Transform → List (String × Transform)
  | [], p, o => [(p, o)]
  | (k, v) :: rest, p, o =>
    if k = p then (p, o) :: rest else (k, v) :: ClientObjs.assign rest p o

/-! ## Server state -/

structure ServerSettings where
  max_queue : Int
  max_threads : Int
  port : Nat
  mesh_split_unit : Nat
deriving DecidableEq

structure Server where
  m_settings : ServerSettings
  m_serving : Bool
  m_client_objs : List (String × Transform)
  m_recv_history : List Message
  m_host_scene : Option Scene
  m_current_get_request : Option GetMessage
  m_current_screenshot_request : Option ScreenshotMessage
  m_screenshot_file_path : String
  m_request_count : Int
deriving DecidableEq

/-- Embeds `Server::clear`. -/
def Server.clear (s : Server) : Server :=
  { s with m_client_objs := [], m_recv_history := [], m_host_scene := none }

/-- The value of an integer as a 32-bit `int`: reduced modulo 2^32 into [-2^31, 2^31). It is
the conversion `(int)` of a `size_t` and the result of `++` / `--` on a `std::atomic_int`. -/
def toInt32 (x : Int) : Int :=
  (x + 2147483648) % 4294967296 - 2147483648

/-- Embeds `Server::getNumMessages`. -/
def Server.getNumMessages (s : Server) : Int :=
  toInt32 (s.m_recv_history.length : Int)

/-- Embeds `Server::setServe`. -/
def Server.setServe (s : Server) (v : Bool) : Server :=
  let s1 := { s with m_serving := v }
  if !v then s1.clear else s1

/-- Embeds `Server::isServing`. -/
def Server.isServing (s : Server) : Bool :=
  s.m_serving

/-- Embeds `Server::getSettings`. -/
def Server.getSettings (s : Server) : ServerSettings :=
  s.m_settings

/-- Embeds `Server::getHostScene`. -/
def Server.getHostScene (s : Server) : Option Scene :=
  s.m_host_scene

/-- Embeds `Server::beginServe`. -/
def Server.beginServe (s : Server) : Server :=
  match s.m_current_get_request with
  | none => s
  | some request =>
    let flags : RefineFlags :=
      { request.refine_settings.flags with
        swap_handedness :=
          decide (request.scene_settings.handedness = Handedness.Right) ||
          decide (request.scene_settings.handedness = Handedness.RightZUp)
        swap_yz :=
          decide (request.scene_settings.handedness = Handedness.LeftZUp) ||
          decide (request.scene_settings.handedness = Handedness.RightZUp) }
    let request1 : GetMessage :=
      { request with
        refine_settings :=
          { request.refine_settings with
            scale_factor := request.scene_settings.scale_factor
            flags := flags } }
    { s with
      m_host_scene := some { settings := request.scene_settings, objects := [], animations := [] }
      m_current_get_request := some request1 }

/-- The body of the `parallel_for_each` in `Server::endServe`, for one object. -/
def endServeObject (request : GetMessage) (p : Transform) : Transform :=
  if p.type = EntityType.Mesh then
    let rs : RefineSettings :=
      { p.refine_settings with
        flags := request.refine_settings.flags
        scale_factor := request.refine_settings.scale_factor
        smooth_angle := 180 }
    { p with has_refine_settings := true, refine_settings := rs,
             applied := p.applied ++ [GeomOp.refine rs] }
  else p

/-- Embeds `Server::endServe`. -/
def Server.endServe (s : Server) : Server :=
  match s.m_current_get_request with
  | none => s
  | some request =>
    match s.m_host_scene with
    | none => s
    | some scene =>
      let scene1 := { scene with objects := scene.objects.map (endServeObject request) }
      let request1 : GetMessage :=
        match request.wait_flag with
        | some _ => { request with wait_flag := some 0 }
        | none => request
      { s with m_host_scene := some scene1, m_current_get_request := some request1 }

/-- Embeds `Server::setScrrenshotFilePath`. -/
def Server.setScrrenshotFilePath (s : Server) (path : String) : Server :=
  match s.m_current_screenshot_request with
  | none => s
  | some shot =>
    let shot1 : ScreenshotMessage :=
      match shot.wait_flag with
      | some _ => { shot with wait_flag := some 0 }
      | none => shot
    { s with m_screenshot_file_path := path, m_current_screenshot_request := some shot1 }

/-- Embeds `Server::queueVersionNotMatchedMessage`. -/
def Server.queueVersionNotMatchedMessage (s : Server) : Server :=
  let txt : TextMessage := { type := TextType.Error, text := "protocol version not matched" }
  { s with m_recv_history := s.m_recv_history ++ [Message.text txt] }

/-- Embeds `Server::queueMessage`. -/
def Server.queueMessage (s : Server) (v : Message) : Server :=
  { s with m_recv_history := s.m_recv_history ++ [v] }

/-! ## The host poll -/

/-- What a host callback can do to the server while `processMessages` holds the mutex:
the member functions that do not take the mutex themselves. -/
inductive HostCall where
  | beginServe
  | endServe
  | setScrrenshotFilePath (path : String)
  | addObject (obj : Transform)
  | setServeOn
  | setSettings (settings : ServerSettings)
deriving DecidableEq

/-- One call of the host callback on the server. `addObject` is
`getHostScene()->objects.push_back(obj)`, `setServeOn` is `setServe(true)`, `setSettings` is
an assignment through the reference returned by `getSettings()`. -/
def HostCall.run (s : Server) : HostCall → Server
  | .beginServe => s.beginServe
  | .endServe => s.endServe
  | .setScrrenshotFilePath path => s.setScrrenshotFilePath path
  | .addObject obj =>
    match s.m_host_scene with
    | none => s
    | some scene => { s with m_host_scene := some { scene with objects := scene.objects ++ [obj] } }
  | .setServeOn => s.setServe true
  | .setSettings settings => { s with m_settings := settings }

/-- The host callback `MessageHandler`, a `std::function` with whatever it captures: `State`
is the host's own data, `init` its value when the poll starts, and `call` one invocation:
from the host's data, the tag, the message and the server as it stands, the host's data
afterwards and the calls made on the server. -/
structure MessageHandler where
  State : Type
  init : State
  call : State → MessageType → Message → Server → State × List HostCall

/-- Runs the callback's calls in order. -/
def runHost (s : Server) (calls : List HostCall) : Server :=
  calls.foldl HostCall.run s

/-- One invocation `handler(kind, msg)` on server `s` with host data `st`. -/
def MessageHandler.invoke (handler : MessageHandler) (kind : MessageType) (msg : Message)
    (s : Server) (st : handler.State) : Server × handler.State :=
  (runHost s (handler.call st kind msg s).2, (handler.call st kind msg s).1)

/-- What `processMessages` leaves: its return value, the server, and the host's data. -/
structure PollResult (σ : Type) where
  ret : Int
  server : Server
  host : σ

/-- The loop of `Server::processMessages` over the messages still to visit. -/
def processLoop (handler : MessageHandler) :
    List Message → Server → handler.State → Server × handler.State
  | [], s, st => (s, st)
  | p :: rest, s, st =>
    match p with
    | .get get =>
      let s1 := { s with m_current_get_request := some get }
      let r := handler.invoke MessageType.Get p s1 st
      processLoop handler rest { r.1 with m_current_get_request := none } r.2
    | .set _ =>
      let r := handler.invoke MessageType.Set p s st
      processLoop handler rest r.1 r.2
    | .delete del =>
      let r := handler.invoke MessageType.Delete p s st
      let s2 := { r.1 with
        m_client_objs := del.targets.foldl (fun d id => ClientObjs.erase d id.path) r.1.m_client_objs }
      processLoop handler rest s2 r.2
    | .fence _ =>
      let r := handler.invoke MessageType.Fence p s st
      processLoop handler rest r.1 r.2
    | .text _ =>
      let r := handler.invoke MessageType.Text p s st
      processLoop handler rest r.1 r.2
    | .screenshot shot =>
      let s1 := { s with m_current_screenshot_request := some shot }
      let r := handler.invoke MessageType.Screenshot p s1 st
      processLoop handler rest r.1 r.2
    | .query _ =>
      let r := handler.invoke MessageType.Query p s st
      processLoop handler rest r.1 r.2

/-- Embeds `Server::processMessages`. -/
def Server.processMessages (s : Server) (handler : MessageHandler) :
    PollResult handler.State :=
  let r := processLoop handler s.m_recv_history s handler.init
  let ret : Int := toInt32 (r.1.m_recv_history.length : Int)
  { ret := ret, server := { r.1 with m_recv_history := [] }, host := r.2 }

/-! ## HTTP requests and responses -/

/-- The parts of `HTTPServerRequest` the handlers read. -/
structure Request where
  uri : String
  method : String
  contentLength : Nat
  stream : String
deriving DecidableEq

/-- What is written to the response stream: bytes, or the content of a file (`sendFile`). -/
inductive Payload where
  | bytes (data : String)
  | file (path : String)
deriving DecidableEq

/-- The parts of `HTTPServerResponse` the handlers write. `none` is a field left unset. -/
structure Response where
  headers : List (String × String)
  contentType : Option String
  contentLength : Option Nat
  body : Payload
deriving DecidableEq

/-- Embeds `RespondText`. -/
def RespondText (message : String) : Response :=
  { headers := []
    contentType := some "text/plain"
    contentLength := some message.utf8ByteSize
    body := Payload.bytes message }

/-- The page built by `RespondTextForm`. -/
def textFormBody (message : String) : String :=
  "<!DOCTYPE html>" ++ "<html>" ++ "<meta charset=\"UTF-8\">" ++
  "<title>MeshSync Server</title>" ++ "<body>" ++ message ++
  "<div><img src=\"screenshot\"></div>" ++
  "<form action=\"/text\" method=\"post\">" ++
  "Message: <input type=\"text\" name=\"t\"><br>" ++
  "<input type=\"submit\" value=\"Submit\">" ++
  "</form>" ++ "</body>" ++ "</html>"

/-- Embeds `RespondTextForm`. -/
def RespondTextForm (message : String) : Response :=
  { headers := [("Cache-Control", "no-store, must-revalidate")]
    contentType := some "text/html"
    contentLength := some (textFormBody message).utf8ByteSize
    body := Payload.bytes (textFormBody message) }

/-- What the handlers use from outside the modelled file: the `deserialize` member of each
message class (the flag is its return value, the message is the object as it is left),
`Poco::URI::decode`, the single-precision quotient `1.0f / x` (`floatRecip x`, rounded as the
hardware rounds it), and `getSerializeSize` / `serialize` of scenes and query responses. -/
structure Codec where
  getMessage : String → Bool × GetMessage
  setMessage : String → Bool × SetMessage
  deleteMessage : String → Bool × DeleteMessage
  fenceMessage : String → Bool × FenceMessage
  textMessage : String → Bool × TextMessage
  screenshotMessage : String → Bool × ScreenshotMessage
  queryMessage : String → Bool × QueryMessage
  uriDecode : String → String
  floatRecip : Rat → Rat
  sceneSize : Scene → Nat
  sceneBytes : Scene → String
  responseSize : ResponseMessage → Nat
  responseBytes : ResponseMessage → String

/-- What happens around a handler that sleeps in a bounded wait loop: `reads i` is the value
its `i`-th poll reads (wait flag or request counter), `host` is what other threads did to
the server in the meantime, `slot` what the host callback left in a Query's response slot. -/
structure WaitEnv where
  reads : Nat → Int
  host : Server → Server
  slot : Option ResponseMessage → Option ResponseMessage

/-- Observable steps of a handler, in program order. -/
inductive Event where
  | incr
  | decr
  | poll (v : Int)
  | sleep (ms : Nat)
  | enqueue (m : Message)
deriving DecidableEq

structure Outcome where
  server : Server
  response : Response
  trace : List Event

/-- The loop `for (i = 0; i < n; ++i) { if (read == 0) break; sleep_for(10ms); }`,
with `n` iterations left and `i` the index of the next poll. -/
def waitLoop (reads : Nat → Int) : Nat → Nat → List Event
  | 0, _ => []
  | n + 1, i =>
    if reads i = 0 then [Event.poll (reads i)]
    else Event.poll (reads i) :: Event.sleep 10 :: waitLoop reads n (i + 1)

/-- Search of `std::string::find` on character lists, counting positions from `i`. -/
def findFrom (pat : List Char) : List Char → Nat → Option Nat
  | [], i => if pat.isEmpty then some i else none
  | c :: cs, i => if pat.isPrefixOf (c :: cs) then some i else findFrom pat cs (i + 1)

/-- Embeds `s.find(pat)`; `none` is `std::string::npos`. -/
def strFind (s pat : String) : Option Nat :=
  findFrom pat.data s.data 0

/-- The C string that starts at `&s[i]`: up to the first NUL. -/
def cstrFrom (s : String) (i : Nat) : String :=
  String.mk ((s.data.drop i).takeWhile (fun c => decide (c ≠ Char.ofNat 0)))

/-- Embeds `data.resize(n); stream.read(&data[0], n)`: `n` bytes, NUL where the stream ran out. -/
def readBody (stream : String) (n : Nat) : String :=
  String.mk (stream.data.take n ++ List.replicate (n - stream.data.length) (Char.ofNat 0))

/-- Modelled from the spec: `RecvSceneScope` is declared in `msServer.h`, which is not among
the sources. The spec has the request counter change on SceneBegin and SceneEnd only, so
constructing the guard leaves the server as it is. -/
def RecvSceneScope.enter (s : Server) : Server := s

/-- Modelled from the spec: destroying the `RecvSceneScope` guard (see `RecvSceneScope.enter`)
leaves the server as it is. -/
def RecvSceneScope.leave (s : Server) : Server := s

/-- The early exit shared by the handlers that check the result of `deserialize`. -/
def versionNotMatched (s : Server) : Outcome :=
  { server := s.queueVersionNotMatchedMessage
    response := RespondText ""
    trace := [Event.enqueue
      (Message.text { type := TextType.Error, text := "protocol version not matched" })] }

/-- The body of the first `parallel_for_each` in `Server::recvSet`, for one object. -/
def recvSetObject (codec : Codec) (settings : ServerSettings) (scene : SceneSettings)
    (swap_x swap_yz : Bool) (obj : Transform) : Transform :=
  if obj.type = EntityType.Mesh then
    let rs : RefineSettings :=
      { obj.refine_settings with
        scale_factor := codec.floatRecip scene.scale_factor
        flags :=
          { swap_handedness := swap_x, swap_yz := swap_yz, triangulate := true, split := true,
            optimize_topology := true }
        split_unit := settings.mesh_split_unit }
    { obj with refine_settings := rs, applied := obj.applied ++ [GeomOp.refine rs] }
  else
    let a1 :=
      if swap_x || swap_yz then obj.applied ++ [GeomOp.convertHandedness swap_x swap_yz]
      else obj.applied
    let a2 :=
      if scene.scale_factor ≠ 1 then
        a1 ++ [GeomOp.applyScaleFactor (codec.floatRecip scene.scale_factor)]
      else a1
    { obj with applied := a2 }

/-- The body of the second `parallel_for_each` in `Server::recvSet`, for one animation. -/
def recvSetAnimation (codec : Codec) (scene : SceneSettings) (swap_x swap_yz : Bool)
    (anim : Animation) : Animation :=
  let a1 :=
    if swap_x || swap_yz then anim.applied ++ [GeomOp.convertHandedness swap_x swap_yz]
    else anim.applied
  let a2 :=
    if scene.scale_factor ≠ 1 then
      a1 ++ [GeomOp.applyScaleFactor (codec.floatRecip scene.scale_factor)]
    else a1
  { anim with applied := a2 }

/-- The message of `Server::recvSet` after the two refinement passes. -/
def normalizeSet (codec : Codec) (settings : ServerSettings) (mes : SetMessage) : SetMessage :=
  let swap_x :=
    decide (mes.scene.settings.handedness = Handedness.Right) ||
    decide (mes.scene.settings.handedness = Handedness.RightZUp)
  let swap_yz :=
    decide (mes.scene.settings.handedness = Handedness.LeftZUp) ||
    decide (mes.scene.settings.handedness = Handedness.RightZUp)
  { scene :=
    { settings := mes.scene.settings
      objects :=
        mes.scene.objects.map (recvSetObject codec settings mes.scene.settings swap_x swap_yz)
      animations := mes.scene.animations.map (fun clip =>
        { clip with
          animations :=
            clip.animations.map (recvSetAnimation codec mes.scene.settings swap_x swap_yz) }) } }

/-- The locked block at the end of `Server::recvSet`. -/
def Server.commitSet (s : Server) (mes : SetMessage) : Server :=
  { s with
    m_client_objs :=
      mes.scene.objects.foldl (fun d obj => ClientObjs.assign d obj.path obj) s.m_client_objs
    m_recv_history := s.m_recv_history ++ [Message.set mes] }

/-- Embeds `Server::recvSet`. -/
def Server.recvSet (codec : Codec) (s : Server) (request : Request) : Outcome :=
  let s0 := RecvSceneScope.enter s
  let r := codec.setMessage request.stream
  if !r.1 then
    let out := versionNotMatched s0
    { out with server := RecvSceneScope.leave out.server }
  else
    let mes := normalizeSet codec s0.m_settings r.2
    { server := RecvSceneScope.leave (s0.commitSet mes)
      response := RespondText "ok"
      trace := [Event.enqueue (Message.set mes)] }

/-- Embeds `Server::recvDelete`. -/
def Server.recvDelete (codec : Codec) (s : Server) (request : Request) : Outcome :=
  let s0 := RecvSceneScope.enter s
  let r := codec.deleteMessage request.stream
  if !r.1 then
    let out := versionNotMatched s0
    { out with server := RecvSceneScope.leave out.server }
  else
    { server := RecvSceneScope.leave (s0.queueMessage (Message.delete r.2))
      response := RespondText "ok"
      trace := [Event.enqueue (Message.delete r.2)] }

/-- Embeds `Server::recvFence`. -/
def Server.recvFence (codec : Codec) (s : Server) (request : Request) (env : WaitEnv) : Outcome :=
  let r := codec.fenceMessage request.stream
  if !r.1 then versionNotMatched s
  else
    let mes := r.2
    if mes.type = FenceType.SceneBegin then
      let s1 := { s with m_request_count := toInt32 (s.m_request_count + 1) }
      { server := s1.queueMessage (Message.fence mes)
        response := RespondText "ok"
        trace := [Event.incr, Event.enqueue (Message.fence mes)] }
    else if mes.type = FenceType.SceneEnd then
      let s1 := { s with m_request_count := toInt32 (s.m_request_count - 1) }
      let s2 := env.host s1
      { server := s2.queueMessage (Message.fence mes)
        response := RespondText "ok"
        trace := [Event.decr] ++ waitLoop env.reads 500 0 ++ [Event.enqueue (Message.fence mes)] }
    else
      { server := s.queueMessage (Message.fence mes)
        response := RespondText "ok"
        trace := [Event.enqueue (Message.fence mes)] }

/-- The first part of `Server::recvText`: the message it builds and the flag `respond_form`. -/
def recvTextMessage (codec : Codec) (request : Request) : TextMessage × Bool :=
  let fresh : TextMessage := { text := "", type := TextType.Normal }
  if request.uri = "text" then
    ((codec.textMessage request.stream).2, false)
  else if request.method = "GET" then
    match strFind request.uri "t=" with
    | some pos => ({ fresh with text := codec.uriDecode (cstrFrom request.uri (pos + 2)) }, true)
    | none => (fresh, true)
  else if request.method = "POST" then
    let data := readBody request.stream request.contentLength
    match strFind data "t=" with
    | some pos => ({ fresh with text := codec.uriDecode (cstrFrom data (pos + 2)) }, true)
    | none => ({ fresh with text := data }, true)
  else (fresh, false)

/-- Embeds `Server::recvText`. -/
def Server.recvText (codec : Codec) (s : Server) (request : Request) : Outcome :=
  let mes := (recvTextMessage codec request).1
  let respond_form := (recvTextMessage codec request).2
  if mes.text ≠ "" then
    { server := s.queueMessage (Message.text mes)
      response := if respond_form then RespondTextForm "" else RespondText ""
      trace := [Event.enqueue (Message.text mes)] }
  else
    { server := s
      response := if respond_form then RespondTextForm "" else RespondText ""
      trace := [] }

/-- Embeds `Server::recvGet`. -/
def Server.recvGet (codec : Codec) (s : Server) (request : Request) (env : WaitEnv) : Outcome :=
  let r := codec.getMessage request.stream
  if !r.1 then versionNotMatched s
  else
    let mes : GetMessage := { r.2 with wait_flag := some 1 }
    let s1 := s.queueMessage (Message.get mes)
    let s2 := env.host s1
    let trace := [Event.enqueue (Message.get mes)] ++ waitLoop env.reads 300 0
    match s2.m_host_scene with
    | some scene =>
      { server := s2
        response :=
          { headers := []
            contentType := some "application/octet-stream"
            contentLength := some (codec.sceneSize scene)
            body := Payload.bytes (codec.sceneBytes scene) }
        trace := trace }
    | none =>
      { server := s2
        response :=
          { headers := [], contentType := none, contentLength := some 0, body := Payload.bytes "" }
        trace := trace }

/-- Embeds `Server::recvScreenshot`. -/
def Server.recvScreenshot (codec : Codec) (s : Server) (request : Request) (env : WaitEnv) :
    Outcome :=
  let r := codec.screenshotMessage request.stream
  let mes : ScreenshotMessage := { r.2 with wait_flag := some 1 }
  let s1 := s.queueMessage (Message.screenshot mes)
  let s2 := env.host s1
  { server := s2
    response :=
      { headers := [("Cache-Control", "no-store, must-revalidate")]
        contentType := some "image/png"
        contentLength := none
        body := Payload.file s2.m_screenshot_file_path }
    trace := [Event.enqueue (Message.screenshot mes)] ++ waitLoop env.reads 300 0 }

/-- The effect of `mes->response.reset()` on the receive history: the history holds a pointer
to the same message, so the queued Query, if it has not been drained, loses its response.
The message is found by its value. -/
def resetResponse (mes : QueryMessage) (history : List Message) : List Message :=
  history.map (fun m =>
    if m = Message.query mes then Message.query { mes with response := none } else m)

/-- Embeds `Server::recvQuery`. -/
def Server.recvQuery (codec : Codec) (s : Server) (request : Request) (env : WaitEnv) : Outcome :=
  let r := codec.queryMessage request.stream
  let mes : QueryMessage := { r.2 with wait_flag := some 1, response := some { data := "" } }
  let s1 := s.queueMessage (Message.query mes)
  let s2 := env.host s1
  let trace := [Event.enqueue (Message.query mes)] ++ waitLoop env.reads 300 0
  match env.slot mes.response with
  | some resp =>
    { server := { s2 with m_recv_history := resetResponse mes s2.m_recv_history }
      response :=
        { headers := []
          contentType := some "application/octet-stream"
          contentLength := some (codec.responseSize resp)
          body := Payload.bytes (codec.responseBytes resp) }
      trace := trace }
  | none =>
    { server := s2
      response :=
        { headers := []
          contentType := some "application/octet-stream"
          contentLength := some 0
          body := Payload.bytes "" }
      trace := trace }

/-- The branches of `RequestHandler::handleRequest`. -/
inductive Target where
  | recvGet | recvSet | recvDelete | recvFence | recvText | recvScreenshot | recvQuery | form
deriving DecidableEq, Repr

/-- The `if` / `else if` chain of `RequestHandler::handleRequest` on the URI. -/
def dispatch (uri : String) : Target :=
  if uri = "get" then Target.recvGet
  else if uri = "set" then Target.recvSet
  else if uri = "delete" then Target.recvDelete
  else if uri = "fence" then Target.recvFence
  else if uri = "text" ∨ strFind uri "/text" ≠ none then Target.recvText
  else if strFind uri "/screenshot" ≠ none then Target.recvScreenshot
  else if uri = "query" then Target.recvQuery
  else Target.form

/-- The call made in each branch of `RequestHandler::handleRequest`. -/
def Target.run (codec : Codec) (s : Server) (request : Request) (env : WaitEnv) :
    Target → Outcome
  | Target.recvGet => s.recvGet codec request env
  | Target.recvSet => s.recvSet codec request
  | Target.recvDelete => s.recvDelete codec request
  | Target.recvFence => s.recvFence codec request env
  | Target.recvText => s.recvText codec request
  | Target.recvScreenshot => s.recvScreenshot codec request env
  | Target.recvQuery => s.recvQuery codec request env
  | Target.form => { server := s, response := RespondTextForm "", trace := [] }

/-- Embeds `RequestHandler::handleRequest`. -/
def handleRequest (codec : Codec) (s : Server) (request : Request) (env : WaitEnv) : Outcome :=
  if !s.isServing then
    { server := s, response := RespondText "", trace := [] }
  else
    (dispatch request.uri).run codec s request env

/-! ## Vocabulary of the specification -/

/-- A request handled from start to end with no other thread touching the server:
`reads` feeds its wait loop, `slot` is the Query response slot as the host leaves it. -/
structure Arrival where
  request : Request
  reads : Nat → Int
  slot : Option ResponseMessage → Option ResponseMessage

/-- The wait environment of an `Arrival`: nothing else runs during the wait. -/
def Arrival.env (a : Arrival) : WaitEnv :=
  { reads := a.reads, host := id, slot := a.slot }

/-- Handles a list of requests one after the other through `handleRequest`. -/
def arriveAll (codec : Codec) (s : Server) (arrivals : List Arrival) : Server :=
  arrivals.foldl (fun s a => (handleRequest codec s a.request a.env).server) s

/-- The last object with path `p` in a list of objects, `acc` if there is none. -/
def objectAt (p : String) (acc : Option Transform) (objs : List Transform) : Option Transform :=
  objs.foldl (fun acc obj => if obj.path = p then some obj else acc) acc

/-- One step of `lastSetObject`: a Set message overrides the object found so far with its
own last object at `p`, any other message leaves it. -/
def lastSetStep (p : String) (acc : Option Transform) (m : Message) : Option Transform :=
  match m with
  | Message.set mes => objectAt p acc mes.scene.objects
  | _ => acc

/-- The object that the most recent Set message of a history reports for path `p`. -/
def lastSetObject (history : List Message) (p : String) : Option Transform :=
  history.foldl (lastSetStep p) none

/-- The directory entry of `p` is the object of the most recent Set message for `p` in the
receive history, and there is such a message. -/
def Tracked (s : Server) (p : String) : Prop :=
  ClientObjs.find s.m_client_objs p = lastSetObject s.m_recv_history p ∧
  lastSetObject s.m_recv_history p ≠ none

/-- The message queued when `deserialize` fails. -/
def versionError : Message :=
  Message.text { type := TextType.Error, text := "protocol version not matched" }

/-- Handles a list of Fence requests one after the other through `Server::recvFence`. -/
def fenceRun (codec : Codec) (s : Server) (arrivals : List Arrival) : Server :=
  arrivals.foldl (fun s a => (s.recvFence codec a.request a.env).server) s

/-- How many of the requests deserialize successfully to a fence of type `t`. -/
def fenceCount (codec : Codec) (t : FenceType) (arrivals : List Arrival) : Nat :=
  arrivals.countP (fun a =>
    (codec.fenceMessage a.request.stream).1 && decide ((codec.fenceMessage a.request.stream).2.type = t))

/-- The callback `handler` made to keep, next to its own data, the list of the arguments of
its invocations, in the order they are made. On the server it does what `handler` does. -/
def MessageHandler.logged (handler : MessageHandler) : MessageHandler :=
  { State := handler.State × List (MessageType × Message)
    init := (handler.init, [])
    call := fun st kind msg s =>
      (((handler.call st.1 kind msg s).1, st.2 ++ [(kind, msg)]), (handler.call st.1 kind msg s).2) }

/-- The trace of `k` polls at indices `i, i+1, …`, each followed by a 10 ms sleep. -/
def sleptPolls (reads : Nat → Int) : Nat → Nat → List Event
  | 0, _ => []
  | k + 1, i => Event.poll (reads i) :: Event.sleep 10 :: sleptPolls reads k (i + 1)

/-- The string `u` contains `pat` as a contiguous substring. -/
def Contains (u pat : String) : Prop :=
  pat.data <:+: u.data

/-! ## A concrete setting for evaluating the model -/

/-- Modelled from the spec: the wire format, `Poco::URI::decode` and the serializers are not
among the sources; the spec only says that `deserialize` reports success or failure, failure
meaning a protocol-version mismatch. This toy format accepts a stream that starts with the
version character `1` and reads the rest as the payload (a path, a text, `B` or `E` for a
fence); a serialized scene is `S` followed by the paths of its objects; the quotient
`1.0f / x` is taken exact, as it is for the scale factors 1 and 2 used here. -/
def sampleCodec : Codec :=
  let ok := fun (stream : String) => stream.data.head? == some '1'
  let payload := fun (stream : String) => String.mk (stream.data.drop 1)
  let rs : RefineSettings :=
    { flags := { swap_handedness := false, swap_yz := false, triangulate := false, split := false,
                 optimize_topology := false }
      scale_factor := 1, smooth_angle := 0, split_unit := 0 }
  { getMessage := fun stream =>
      (ok stream,
        { scene_settings := { handedness := Handedness.RightZUp, scale_factor := 2 }
          refine_settings := rs, wait_flag := none })
    setMessage := fun stream =>
      (ok stream,
        { scene :=
          { settings := { handedness := Handedness.Left, scale_factor := 1 }
            objects :=
              if ok stream then
                [{ path := payload stream, type := EntityType.Mesh, has_refine_settings := false,
                   refine_settings := rs, applied := [] }]
              else []
            animations := [] } })
    deleteMessage := fun stream =>
      (ok stream, { targets := if ok stream then [{ path := payload stream }] else [] })
    fenceMessage := fun stream =>
      (ok stream,
        { type :=
            if payload stream = "B" then FenceType.SceneBegin
            else if payload stream = "E" then FenceType.SceneEnd
            else FenceType.Unknown })
    textMessage := fun stream =>
      (ok stream, { text := if ok stream then payload stream else "", type := TextType.Normal })
    screenshotMessage := fun stream => (ok stream, { wait_flag := none })
    queryMessage := fun stream =>
      (ok stream, { query := payload stream, wait_flag := none, response := none })
    uriDecode := fun text => text
    floatRecip := fun x => 1 / x
    sceneSize := fun scene => ("S" ++ String.join (scene.objects.map (fun o => o.path))).utf8ByteSize
    sceneBytes := fun scene => "S" ++ String.join (scene.objects.map (fun o => o.path))
    responseSize := fun resp => resp.data.utf8ByteSize
    responseBytes := fun resp => resp.data }

/-- A freshly constructed server that is serving. -/
def sampleServer : Server :=
  { m_settings := { max_queue := 0, max_threads := 0, port := 8080, mesh_split_unit := 0 }
    m_serving := true
    m_client_objs := []
    m_recv_history := []
    m_host_scene := none
    m_current_get_request := none
    m_current_screenshot_request := none
    m_screenshot_file_path := ""
    m_request_count := 0 }

/-- The object `/cube` of the toy Set message as it is deserialized. -/
def wireCube : Transform :=
  { path := "/cube", type := EntityType.Mesh, has_refine_settings := false
    refine_settings :=
      { flags := { swap_handedness := false, swap_yz := false, triangulate := false,
                   split := false, optimize_topology := false }
        scale_factor := 1, smooth_angle := 0, split_unit := 0 }
    applied := [] }

/-- The object `/cube` of the toy Set message, as `recvSet` refines and stores it. -/
def sampleCube : Transform :=
  { path := "/cube", type := EntityType.Mesh, has_refine_settings := false
    refine_settings :=
      { flags := { swap_handedness := false, swap_yz := false, triangulate := true, split := true,
                   optimize_topology := true }
        scale_factor := 1, smooth_angle := 0, split_unit := 0 }
    applied :=
      [GeomOp.refine
        { flags := { swap_handedness := false, swap_yz := false, triangulate := true,
                     split := true, optimize_topology := true }
          scale_factor := 1, smooth_angle := 0, split_unit := 0 }] }

/-- A POST request with the given URI and body. -/
def post (uri body : String) : Request :=
  { uri := uri, method := "POST", contentLength := body.utf8ByteSize, stream := body }

/-- A host callback that does nothing. -/
def idleHandler : MessageHandler :=
  { State := Unit, init := (), call := fun _ _ _ _ => ((), []) }

/-- A host callback that answers every Get with a scene holding one object `/cube`. -/
def servingHandler : MessageHandler :=
  { State := Unit
    init := ()
    call := fun _ kind _ _ =>
      ((),
        if kind = MessageType.Get then
          [HostCall.beginServe,
           HostCall.addObject
             { path := "/cube", type := EntityType.Transform, has_refine_settings := false,
               refine_settings :=
                 { flags := { swap_handedness := false, swap_yz := false, triangulate := false,
                              split := false, optimize_topology := false }
                   scale_factor := 1, smooth_angle := 0, split_unit := 0 }
               applied := [] },
           HostCall.endServe]
        else []) }

/-- Nothing happens during the wait and every poll reads 1: the wait runs to its deadline. -/
def timedOut : WaitEnv :=
  { reads := fun _ => 1, host := id, slot := id }

/-- The host polls with `servingHandler` during the wait; the second poll of the flag reads 0. -/
def served : WaitEnv :=
  { reads := fun i => if i = 0 then 1 else 0
    host := fun s => (s.processMessages servingHandler).server
    slot := id }

/-! ## Look-up lemmas for the entity directory -/

theorem ClientObjs.find_erase_self (d : List (String × Transform)) (p : String) :
    ClientObjs.find (ClientObjs.erase d p) p = none := by
  induction d with
  | nil => rfl
  | cons kv rest ih =>
    obtain ⟨k, v⟩ := kv
    by_cases h : k = p
    · simp only [ClientObjs.erase, if_pos h]; exact ih
    · simp only [ClientObjs.erase, if_neg h, ClientObjs.find]; exact ih

theorem ClientObjs.find_erase_ne (d : List (String × Transform)) (p q : String) (hq : q ≠ p) :
    ClientObjs.find (ClientObjs.erase d p) q = ClientObjs.find d q := by
  induction d with
  | nil => rfl
  | cons kv rest ih =>
    obtain ⟨k, v⟩ := kv
    by_cases h : k = p
    · have hkq : k ≠ q := fun e => hq (e.symm.trans h)
      simp only [ClientObjs.erase, if_pos h, ClientObjs.find, if_neg hkq]; exact ih
    · by_cases hk : k = q
      · simp only [ClientObjs.erase, if_neg h, ClientObjs.find, if_pos hk]
      · simp only [ClientObjs.erase, if_neg h, ClientObjs.find, if_neg hk]; exact ih

theorem ClientObjs.find_erase_of_none (d : List (String × Transform)) (p q : String)
    (h : ClientObjs.find d q = none) : ClientObjs.find (ClientObjs.erase d p) q = none := by
  by_cases hq : q = p
  · subst hq; exact ClientObjs.find_erase_self d q
  · rw [ClientObjs.find_erase_ne d p q hq]; exact h

theorem ClientObjs.find_assign_self (d : List (String × Transform)) (p : String) (o : Transform) :
    ClientObjs.find (ClientObjs.assign d p o) p = some o := by
  induction d with
  | nil => simp only [ClientObjs.assign, ClientObjs.find, if_true]
  | cons kv rest ih =>
    obtain ⟨k, v⟩ := kv
    by_cases h : k = p
    · simp only [ClientObjs.assign, if_pos h, ClientObjs.find, if_true]
    · simp only [ClientObjs.assign, if_neg h, ClientObjs.find]; exact ih

theorem ClientObjs.find_assign_ne (d : List (String × Transform)) (p q : String) (o : Transform)
    (hq : q ≠ p) : ClientObjs.find (ClientObjs.assign d p o) q = ClientObjs.find d q := by
  have hpq : p ≠ q := fun e => hq e.symm
  induction d with
  | nil => simp only [ClientObjs.assign, ClientObjs.find, if_neg hpq]
  | cons kv rest ih =>
    obtain ⟨k, v⟩ := kv
    by_cases h : k = p
    · have hkq : k ≠ q := fun e => hq (e.symm.trans h)
      simp only [ClientObjs.assign, if_pos h, ClientObjs.find, if_neg hpq, if_neg hkq]
    · by_cases hk : k = q
      · simp only [ClientObjs.assign, if_neg h, ClientObjs.find, if_pos hk]
      · simp only [ClientObjs.assign, if_neg h, ClientObjs.find, if_neg hk]; exact ih

theorem find_eraseTargets_of_none (targets : List Identifier) (d : List (String × Transform))
    (q : String) (h : ClientObjs.find d q = none) :
    ClientObjs.find (targets.foldl (fun d id => ClientObjs.erase d id.path) d) q = none := by
  induction targets generalizing d with
  | nil => exact h
  | cons t rest ih => exact ih _ (ClientObjs.find_erase_of_none d t.path q h)

theorem find_eraseTargets_mem (targets : List Identifier) (d : List (String × Transform))
    (t : Identifier) (ht : t ∈ targets) :
    ClientObjs.find (targets.foldl (fun d id => ClientObjs.erase d id.path) d) t.path = none := by
  induction targets generalizing d with
  | nil => cases ht
  | cons u rest ih =>
    rcases List.mem_cons.mp ht with h | h
    · subst h
      exact find_eraseTargets_of_none rest _ _ (ClientObjs.find_erase_self d t.path)
    · exact ih _ h

theorem find_eraseTargets_not_mem (targets : List Identifier) (d : List (String × Transform))
    (q : String) (hq : ∀ t ∈ targets, t.path ≠ q) :
    ClientObjs.find (targets.foldl (fun d id => ClientObjs.erase d id.path) d) q
      = ClientObjs.find d q := by
  induction targets generalizing d with
  | nil => rfl
  | cons u rest ih =>
    have h1 := ih (ClientObjs.erase d u.path) (fun t ht => hq t (List.mem_cons_of_mem _ ht))
    have h2 : q ≠ u.path := fun e => hq u (List.mem_cons_self _ _) e.symm
    simpa [List.foldl_cons, ClientObjs.find_erase_ne d u.path q h2] using h1

/-! ## What the host callback cannot change -/

theorem HostCall.run_frame (s : Server) (c : HostCall) :
    (c.run s).m_client_objs = s.m_client_objs ∧
    (c.run s).m_recv_history = s.m_recv_history ∧
    (c.run s).m_request_count = s.m_request_count := by
  cases c with
  | beginServe =>
    simp only [HostCall.run, Server.beginServe]
    split <;> simp
  | endServe =>
    simp only [HostCall.run, Server.endServe]
    split
    · simp
    · split <;> simp
  | setScrrenshotFilePath path =>
    simp only [HostCall.run, Server.setScrrenshotFilePath]
    split <;> simp
  | addObject obj =>
    simp only [HostCall.run]
    split <;> simp
  | setServeOn => simp [HostCall.run, Server.setServe]
  | setSettings settings => simp [HostCall.run]

theorem runHost_frame (calls : List HostCall) (s : Server) :
    (runHost s calls).m_client_objs = s.m_client_objs ∧
    (runHost s calls).m_recv_history = s.m_recv_history ∧
    (runHost s calls).m_request_count = s.m_request_count := by
  induction calls generalizing s with
  | nil => exact ⟨rfl, rfl, rfl⟩
  | cons c rest ih =>
    have h1 := ih (c.run s)
    have h2 := HostCall.run_frame s c
    simp only [runHost, List.foldl_cons] at h1 ⊢
    exact ⟨h1.1.trans h2.1, h1.2.1.trans h2.2.1, h1.2.2.trans h2.2.2⟩

/-! ## The drain loop -/

theorem invoke_frame (handler : MessageHandler) (kind : MessageType) (msg : Message)
    (s : Server) (st : handler.State) :
    (handler.invoke kind msg s st).1.m_client_objs = s.m_client_objs ∧
    (handler.invoke kind msg s st).1.m_recv_history = s.m_recv_history ∧
    (handler.invoke kind msg s st).1.m_request_count = s.m_request_count :=
  runHost_frame _ s

theorem processLoop_history (handler : MessageHandler) (msgs : List Message)
    (s : Server) (st : handler.State) :
    (processLoop handler msgs s st).1.m_recv_history = s.m_recv_history := by
  induction msgs generalizing s st with
  | nil => rfl
  | cons p rest ih =>
    cases p <;> simp only [processLoop] <;> rw [ih] <;> simp [(invoke_frame _ _ _ _ _).2.1]

theorem processLoop_find_of_none (handler : MessageHandler) (msgs : List Message)
    (s : Server) (st : handler.State) (q : String)
    (h : ClientObjs.find s.m_client_objs q = none) :
    ClientObjs.find (processLoop handler msgs s st).1.m_client_objs q = none := by
  induction msgs generalizing s st with
  | nil => exact h
  | cons p rest ih =>
    cases p with
    | delete del =>
      simp only [processLoop]
      apply ih
      apply find_eraseTargets_of_none
      rw [(invoke_frame _ _ _ _ _).1]; exact h
    | get m => simp only [processLoop]; apply ih; simp [(invoke_frame _ _ _ _ _).1, h]
    | set m => simp only [processLoop]; apply ih; simp [(invoke_frame _ _ _ _ _).1, h]
    | fence m => simp only [processLoop]; apply ih; simp [(invoke_frame _ _ _ _ _).1, h]
    | text m => simp only [processLoop]; apply ih; simp [(invoke_frame _ _ _ _ _).1, h]
    | screenshot m => simp only [processLoop]; apply ih; simp [(invoke_frame _ _ _ _ _).1, h]
    | query m => simp only [processLoop]; apply ih; simp [(invoke_frame _ _ _ _ _).1, h]

theorem processLoop_find_delete (handler : MessageHandler) (msgs : List Message)
    (s : Server) (st : handler.State) (del : DeleteMessage)
    (hd : Message.delete del ∈ msgs) (t : Identifier) (ht : t ∈ del.targets) :
    ClientObjs.find (processLoop handler msgs s st).1.m_client_objs t.path = none := by
  induction msgs generalizing s st with
  | nil => cases hd
  | cons p rest ih =>
    rcases List.mem_cons.mp hd with h | h
    · subst h
      simp only [processLoop]
      apply processLoop_find_of_none
      exact find_eraseTargets_mem del.targets _ t ht
    · cases p <;> simp only [processLoop] <;> exact ih _ _ h

theorem processLoop_find_keep (handler : MessageHandler) (msgs : List Message)
    (s : Server) (st : handler.State) (q : String)
    (hq : ∀ del, Message.delete del ∈ msgs → ∀ t ∈ del.targets, t.path ≠ q) :
    ClientObjs.find (processLoop handler msgs s st).1.m_client_objs q
      = ClientObjs.find s.m_client_objs q := by
  induction msgs generalizing s st with
  | nil => rfl
  | cons p rest ih =>
    have hrest : ∀ del, Message.delete del ∈ rest → ∀ t ∈ del.targets, t.path ≠ q :=
      fun del hd => hq del (List.mem_cons_of_mem _ hd)
    cases p with
    | delete del =>
      simp only [processLoop]
      rw [ih _ _ hrest]
      simp only []
      rw [find_eraseTargets_not_mem del.targets _ q (hq del (List.mem_cons_self _ _)),
        (invoke_frame _ _ _ _ _).1]
    | get m => simp only [processLoop]; rw [ih _ _ hrest]; simp [(invoke_frame _ _ _ _ _).1]
    | set m => simp only [processLoop]; rw [ih _ _ hrest]; simp [(invoke_frame _ _ _ _ _).1]
    | fence m => simp only [processLoop]; rw [ih _ _ hrest]; simp [(invoke_frame _ _ _ _ _).1]
    | text m => simp only [processLoop]; rw [ih _ _ hrest]; simp [(invoke_frame _ _ _ _ _).1]
    | screenshot m =>
      simp only [processLoop]; rw [ih _ _ hrest]; simp [(invoke_frame _ _ _ _ _).1]
    | query m => simp only [processLoop]; rw [ih _ _ hrest]; simp [(invoke_frame _ _ _ _ _).1]

theorem invoke_logged (handler : MessageHandler) (kind : MessageType) (msg : Message)
    (s : Server) (st : handler.State) (log : List (MessageType × Message)) :
    handler.logged.invoke kind msg s (st, log)
      = ((handler.invoke kind msg s st).1,
          ((handler.invoke kind msg s st).2, log ++ [(kind, msg)])) := rfl

theorem processLoop_logged (handler : MessageHandler) (msgs : List Message)
    (s : Server) (st : handler.State) (log : List (MessageType × Message)) :
    processLoop handler.logged msgs s (st, log)
      = ((processLoop handler msgs s st).1,
          ((processLoop handler msgs s st).2, log ++ msgs.map (fun m => (m.kind, m)))) := by
  induction msgs generalizing s st log with
  | nil => simp [processLoop]
  | cons p rest ih =>
    cases p <;> simp only [processLoop, invoke_logged] <;> rw [ih] <;>
      simp [Message.kind]

theorem processMessages_ret (s : Server) (handler : MessageHandler) :
    (s.processMessages handler).ret = toInt32 (s.m_recv_history.length : Int) := by
  simp only [Server.processMessages]
  rw [processLoop_history]

theorem toInt32_of_range (x : Int) (hlo : -2147483648 ≤ x) (hhi : x ≤ 2147483647) :
    toInt32 x = x := by
  unfold toInt32; omega

/-! ## The host poll: claims C2 and C3 -/

/-- C2: for every server state and every Delete message in the receive history, when
`processMessages` returns none of the message's target paths is a key of `m_client_objs`,
whatever else is in the drained history and whatever the host callback does. -/
theorem processMessages_delete_targets_absent (s : Server) (handler : MessageHandler)
    (del : DeleteMessage) (hd : Message.delete del ∈ s.m_recv_history)
    (t : Identifier) (ht : t ∈ del.targets) :
    ClientObjs.find (s.processMessages handler).server.m_client_objs t.path = none := by
  simp only [Server.processMessages]
  exact processLoop_find_delete handler s.m_recv_history s handler.init del hd t ht

/-- C2 at a concrete history: Set `/cube`, Delete `/cube`, Set `/cube` again; the directory
holds `/cube` before the poll and not after it. -/
theorem processMessages_delete_targets_absent_witness :
    Message.delete { targets := [{ path := "/cube" }] } ∈
      (((sampleServer.recvSet sampleCodec (post "set" "1/cube")).server.recvDelete sampleCodec
        (post "delete" "1/cube")).server.recvSet sampleCodec (post "set" "1/cube")).server.m_recv_history
    ∧ ClientObjs.find
        (((sampleServer.recvSet sampleCodec (post "set" "1/cube")).server.recvDelete sampleCodec
          (post "delete" "1/cube")).server.recvSet sampleCodec
            (post "set" "1/cube")).server.m_client_objs "/cube" ≠ none
    ∧ ClientObjs.find
        ((((sampleServer.recvSet sampleCodec (post "set" "1/cube")).server.recvDelete sampleCodec
          (post "delete" "1/cube")).server.recvSet sampleCodec
            (post "set" "1/cube")).server.processMessages idleHandler).server.m_client_objs
        "/cube" = none :=
  ⟨by with_unfolding_all decide, by with_unfolding_all decide,
   processMessages_delete_targets_absent _ idleHandler { targets := [{ path := "/cube" }] }
     (by with_unfolding_all decide) { path := "/cube" } (by decide)⟩

/-- C3 as stated fails on the return value: the count is returned as a 32-bit `int`; for a
receive history of 2^31 messages `processMessages` returns -2147483648, not the length. -/
theorem processMessages_ret_wraps :
    (({ sampleServer with
        m_recv_history := List.replicate 2147483648 versionError }).processMessages
      idleHandler).ret = -2147483648 ∧
    (({ sampleServer with
        m_recv_history := List.replicate 2147483648 versionError }).processMessages
      idleHandler).ret
      ≠ ((({ sampleServer with
        m_recv_history := List.replicate 2147483648 versionError }).m_recv_history.length : Nat)
          : Int) := by
  have h : (({ sampleServer with
      m_recv_history := List.replicate 2147483648 versionError }).processMessages
      idleHandler).ret = -2147483648 := by
    rw [processMessages_ret]
    show toInt32 ((List.replicate 2147483648 versionError).length : Int) = -2147483648
    rw [List.length_replicate]
    decide
  refine ⟨h, ?_⟩
  rw [h]
  show (-2147483648 : Int) ≠ ((List.replicate 2147483648 versionError).length : Int)
  rw [List.length_replicate]
  decide

/-- C3, amended: for every receive history h and every host callback, `processMessages`
invokes the callback exactly once per message of h, in arrival order, each time with the tag
of the message's variant and the message itself: a callback that also records the arguments
of its invocations ends the poll with exactly the list of (tag of m, m) for m in h, and
otherwise the poll runs as without the recording. The value returned is the length of h as
a 32-bit `int`, which is the length when h has fewer than 2^31 messages. Afterwards the
receive history is empty and `getNumMessages` returns 0. -/
theorem processMessages_calls_in_order (s : Server) (handler : MessageHandler) :
    (s.processMessages handler.logged).host.2
      = s.m_recv_history.map (fun m => (m.kind, m)) ∧
    (s.processMessages handler.logged).host.1 = (s.processMessages handler).host ∧
    (s.processMessages handler.logged).server = (s.processMessages handler).server ∧
    (s.processMessages handler).ret = toInt32 (s.m_recv_history.length : Int) ∧
    (s.m_recv_history.length < 2147483648 →
      (s.processMessages handler).ret = (s.m_recv_history.length : Int)) ∧
    (s.processMessages handler).server.m_recv_history = [] ∧
    (s.processMessages handler).server.getNumMessages = 0 := by
  have hlog := processLoop_logged handler s.m_recv_history s handler.init []
  have hlog1 : processLoop handler.logged s.m_recv_history s handler.logged.init
      = ((processLoop handler s.m_recv_history s handler.init).1,
          ((processLoop handler s.m_recv_history s handler.init).2,
            [] ++ s.m_recv_history.map (fun m => (m.kind, m)))) := hlog
  refine ⟨?_, ?_, ?_, processMessages_ret s handler, ?_, rfl, ?_⟩
  · simp only [Server.processMessages, hlog1, List.nil_append]
  · simp only [Server.processMessages, hlog1]
  · simp only [Server.processMessages, hlog1]
  · intro hlen
    rw [processMessages_ret]
    apply toInt32_of_range <;> omega
  · simp [Server.getNumMessages, Server.processMessages, toInt32]

/-- C3, amended, at a concrete history: after a Set of `/cube` and a Delete of `/cube`, the
recording callback ends the poll with the two invocations (Set, Delete) and the poll
returns 2. -/
theorem processMessages_calls_in_order_witness :
    ((sampleServer.recvSet sampleCodec (post "set" "1/cube")).server.recvDelete sampleCodec
      (post "delete" "1/cube")).server.m_recv_history.length < 2147483648 ∧
    ((((sampleServer.recvSet sampleCodec (post "set" "1/cube")).server.recvDelete sampleCodec
      (post "delete" "1/cube")).server.processMessages idleHandler.logged).host.2).map
        (fun c : MessageType × Message => c.1) = [MessageType.Set, MessageType.Delete] ∧
    (((sampleServer.recvSet sampleCodec (post "set" "1/cube")).server.recvDelete sampleCodec
      (post "delete" "1/cube")).server.processMessages idleHandler).ret
      = ((((sampleServer.recvSet sampleCodec (post "set" "1/cube")).server.recvDelete sampleCodec
          (post "delete" "1/cube")).server.m_recv_history.length : Nat) : Int) :=
  ⟨by decide, by with_unfolding_all decide,
   (processMessages_calls_in_order
      ((sampleServer.recvSet sampleCodec (post "set" "1/cube")).server.recvDelete sampleCodec
        (post "delete" "1/cube")).server idleHandler).2.2.2.2.1 (by decide)⟩

/-! ## The serving gate: claim C4 -/

/-- C4: for every request, if the serving flag is false `handleRequest` responds with an
empty `text/plain` body and leaves the whole server state unchanged, so a following poll
returns what it would have returned without the request: zero messages when the history was
empty (value 0, the callback never invoked), in particular after `setServe(false)`, where
the entity directory is empty too. -/
theorem handleRequest_not_serving (codec : Codec) (s : Server) (request : Request)
    (env : WaitEnv) (handler : MessageHandler) (h : s.m_serving = false) :
    (handleRequest codec s request env).server = s ∧
    (handleRequest codec s request env).response = RespondText "" ∧
    (handleRequest codec s request env).response.contentType = some "text/plain" ∧
    (handleRequest codec s request env).response.contentLength = some 0 ∧
    (handleRequest codec s request env).response.body = Payload.bytes "" ∧
    (handleRequest codec s request env).trace = [] ∧
    (handleRequest codec s request env).server.processMessages handler
      = s.processMessages handler ∧
    (s.m_recv_history = [] →
      ((handleRequest codec s request env).server.processMessages handler).ret = 0 ∧
      ((handleRequest codec s request env).server.processMessages handler.logged).host.2 = [] ∧
      ((handleRequest codec s request env).server.processMessages handler).host
        = handler.init) ∧
    (∀ s0 : Server, s = s0.setServe false →
      ((handleRequest codec s request env).server.processMessages handler).ret = 0 ∧
      ((handleRequest codec s request env).server.processMessages handler.logged).host.2 = [] ∧
      ((handleRequest codec s request env).server.processMessages handler).host
        = handler.init ∧
      (handleRequest codec s request env).server.m_client_objs = []) := by
  have hout : handleRequest codec s request env
      = { server := s, response := RespondText "", trace := [] } := by
    simp [handleRequest, Server.isServing, h]
  have hempty : ∀ s1 : Server, s1.m_recv_history = [] →
      (s1.processMessages handler).ret = 0 ∧
      (s1.processMessages handler.logged).host.2 = [] ∧
      (s1.processMessages handler).host = handler.init := by
    intro s1 h1
    refine ⟨?_, ?_, ?_⟩
    · rw [processMessages_ret, h1]; decide
    · simp only [Server.processMessages, h1, processLoop]; rfl
    · simp only [Server.processMessages, h1, processLoop]
  rw [hout]
  refine ⟨rfl, rfl, rfl, rfl, rfl, rfl, rfl, hempty s, ?_⟩
  intro s0 hs0
  have h1 : s.m_recv_history = [] := by
    rw [hs0]; simp [Server.setServe, Server.clear]
  have h2 : s.m_client_objs = [] := by
    rw [hs0]; simp [Server.setServe, Server.clear]
  exact ⟨(hempty s h1).1, (hempty s h1).2.1, (hempty s h1).2.2, h2⟩

/-- C4 at a concrete input: a POST `set` of `/cube` after `setServe(false)`. -/
theorem handleRequest_not_serving_witness :
    (sampleServer.setServe false).m_serving = false ∧
    (handleRequest sampleCodec (sampleServer.setServe false) (post "set" "1/cube") timedOut).server
      = sampleServer.setServe false ∧
    ((handleRequest sampleCodec (sampleServer.setServe false) (post "set" "1/cube")
      timedOut).server.processMessages idleHandler).ret = 0 :=
  ⟨rfl,
   (handleRequest_not_serving sampleCodec (sampleServer.setServe false) (post "set" "1/cube")
      timedOut idleHandler rfl).1,
   ((handleRequest_not_serving sampleCodec (sampleServer.setServe false) (post "set" "1/cube")
      timedOut idleHandler rfl).2.2.2.2.2.2.2.2 sampleServer rfl).1⟩

/-! ## Deserialize failures: claim C5 -/

/-- C5 as stated fails for the handlers that do not look at the result of `deserialize`:
with a body that fails to deserialize, `recvScreenshot` and `recvQuery` queue the request
itself and no error text, and `recvText` queues nothing. -/
theorem deserialize_failure_unchecked :
    (sampleCodec.screenshotMessage "").1 = false ∧
    (sampleServer.recvScreenshot sampleCodec (post "/screenshot" "") timedOut).server.m_recv_history
      = [Message.screenshot { wait_flag := some 1 }] ∧
    (sampleServer.recvScreenshot sampleCodec (post "/screenshot" "") timedOut).response
      ≠ RespondText "" ∧
    (sampleCodec.queryMessage "").1 = false ∧
    (sampleServer.recvQuery sampleCodec (post "query" "") timedOut).server.m_recv_history
      = [Message.query { query := "", wait_flag := some 1, response := none }] ∧
    (sampleCodec.textMessage "").1 = false ∧
    (sampleServer.recvText sampleCodec (post "text" "")).server.m_recv_history = [] := by
  refine ⟨by decide, by decide, by decide, by decide, by decide, by decide, by decide⟩

/-- C5, amended: for Set, Delete, Fence and Get, when `deserialize` fails the handler appends
exactly one message to the receive history, the Error text "protocol version not matched",
changes nothing else in the server (the failed message is not queued, the entity directory
is as before) and responds with an empty `text/plain` body. -/
theorem deserialize_failure_checked (codec : Codec) (s : Server) (request : Request)
    (env : WaitEnv) :
    ((codec.setMessage request.stream).1 = false →
      (s.recvSet codec request).server
        = { s with m_recv_history := s.m_recv_history ++ [versionError] } ∧
      (s.recvSet codec request).response = RespondText "") ∧
    ((codec.deleteMessage request.stream).1 = false →
      (s.recvDelete codec request).server
        = { s with m_recv_history := s.m_recv_history ++ [versionError] } ∧
      (s.recvDelete codec request).response = RespondText "") ∧
    ((codec.fenceMessage request.stream).1 = false →
      (s.recvFence codec request env).server
        = { s with m_recv_history := s.m_recv_history ++ [versionError] } ∧
      (s.recvFence codec request env).response = RespondText "") ∧
    ((codec.getMessage request.stream).1 = false →
      (s.recvGet codec request env).server
        = { s with m_recv_history := s.m_recv_history ++ [versionError] } ∧
      (s.recvGet codec request env).response = RespondText "") := by
  refine ⟨?_, ?_, ?_, ?_⟩ <;> intro h
  · simp [Server.recvSet, h, versionNotMatched, RecvSceneScope.enter, RecvSceneScope.leave,
      Server.queueVersionNotMatchedMessage, versionError]
  · simp [Server.recvDelete, h, versionNotMatched, RecvSceneScope.enter, RecvSceneScope.leave,
      Server.queueVersionNotMatchedMessage, versionError]
  · simp [Server.recvFence, h, versionNotMatched, Server.queueVersionNotMatchedMessage,
      versionError]
  · simp [Server.recvGet, h, versionNotMatched, Server.queueVersionNotMatchedMessage,
      versionError]

/-- C5, amended, at a concrete input: an empty body fails the version check of the toy
format; `recvSet` on a fresh server leaves one error text in the history. -/
theorem deserialize_failure_checked_witness :
    (sampleCodec.setMessage "").1 = false ∧
    (sampleServer.recvSet sampleCodec (post "set" "")).server.m_recv_history = [versionError] ∧
    (sampleServer.recvSet sampleCodec (post "set" "")).response = RespondText "" ∧
    (sampleServer.recvGet sampleCodec (post "get" "") timedOut).server.m_recv_history
      = [versionError] :=
  ⟨by decide,
   by rw [((deserialize_failure_checked sampleCodec sampleServer (post "set" "") timedOut).1
      (by decide)).1]; rfl,
   ((deserialize_failure_checked sampleCodec sampleServer (post "set" "") timedOut).1
      (by decide)).2,
   by rw [((deserialize_failure_checked sampleCodec sampleServer (post "get" "")
      timedOut).2.2.2 (by decide)).1]; rfl⟩

/-! ## Serving a Get: claim C10 -/

/-- C10 as stated fails on the scale factor: for a Get request with scene scale factor 2,
`beginServe` sets the request's refine scale factor to 2, not to 1/2. -/
theorem beginServe_scale_not_inverted :
    (sampleCodec.getMessage "1").2.scene_settings.scale_factor = 2 ∧
    ({ sampleServer with
        m_current_get_request := some (sampleCodec.getMessage "1").2 }).beginServe.m_current_get_request.map
      (fun g : GetMessage => g.refine_settings.scale_factor) = some 2 ∧
    ({ sampleServer with
        m_current_get_request := some (sampleCodec.getMessage "1").2 }).beginServe.m_current_get_request.map
      (fun g : GetMessage => g.refine_settings.scale_factor) ≠ some (1 / 2) := by
  refine ⟨by with_unfolding_all decide, by with_unfolding_all decide,
    by with_unfolding_all decide⟩

/-- C10, amended: for every current Get request with scale factor `S > 0`, after
`beginServe` the host scene is a fresh, empty scene whose settings are the request's scene
settings, and the request's refine settings have `swap_handedness` = (handedness is Right or
RightZUp), `swap_yz` = (handedness is LeftZUp or RightZUp) and `scale_factor = S`: the
scale factor is copied, not inverted as in `recvSet`. The rest of the request and of the
server is as before. -/
theorem beginServe_derives_settings (s : Server) (g : GetMessage)
    (hg : s.m_current_get_request = some g) (hS : 0 < g.scene_settings.scale_factor) :
    s.beginServe.m_host_scene
      = some { settings := g.scene_settings, objects := [], animations := [] } ∧
    s.beginServe.m_current_get_request
      = some { g with
          refine_settings :=
            { g.refine_settings with
              scale_factor := g.scene_settings.scale_factor
              flags :=
                { g.refine_settings.flags with
                  swap_handedness :=
                    decide (g.scene_settings.handedness = Handedness.Right ∨
                      g.scene_settings.handedness = Handedness.RightZUp)
                  swap_yz :=
                    decide (g.scene_settings.handedness = Handedness.LeftZUp ∨
                      g.scene_settings.handedness = Handedness.RightZUp) } } } ∧
    s.beginServe
      = { s with m_host_scene := s.beginServe.m_host_scene,
                 m_current_get_request := s.beginServe.m_current_get_request } ∧
    (g.scene_settings.scale_factor ≠ 1 →
      s.beginServe.m_current_get_request.map (fun r : GetMessage => r.refine_settings.scale_factor)
        ≠ some (1 / g.scene_settings.scale_factor)) := by
  refine ⟨?_, ?_, ?_, ?_⟩
  · simp [Server.beginServe, hg]
  · simp [Server.beginServe, hg, Bool.decide_or]
  · simp [Server.beginServe, hg]
  · intro hne
    simp only [Server.beginServe, hg, Option.map_some', ne_eq, Option.some.injEq]
    intro heq
    have hpos := hS
    have h1 : g.scene_settings.scale_factor * g.scene_settings.scale_factor = 1 := by
      field_simp at heq
      nlinarith [heq]
    have h2 : (g.scene_settings.scale_factor - 1) * (g.scene_settings.scale_factor + 1) = 0 := by
      ring_nf; linarith
    rcases mul_eq_zero.mp h2 with h3 | h3
    · exact hne (by linarith)
    · linarith

/-- C10, amended, at a concrete input: the Get request of the toy format (RightZUp, scale 2). -/
theorem beginServe_derives_settings_witness :
    (0 : Rat) < (sampleCodec.getMessage "1").2.scene_settings.scale_factor ∧
    ({ sampleServer with
        m_current_get_request := some (sampleCodec.getMessage "1").2 }).beginServe.m_host_scene
      = some { settings := { handedness := Handedness.RightZUp, scale_factor := 2 },
               objects := [], animations := [] } :=
  ⟨by with_unfolding_all decide,
   (beginServe_derives_settings
      { sampleServer with m_current_get_request := some (sampleCodec.getMessage "1").2 }
      (sampleCodec.getMessage "1").2 rfl (by with_unfolding_all decide)).1⟩

/-! ## Routing: claim C9 -/

theorem findFrom_ne_none_iff (pat l : List Char) (i : Nat) :
    findFrom pat l i ≠ none ↔ pat <:+: l := by
  induction l generalizing i with
  | nil =>
    cases pat with
    | nil => simp [findFrom]
    | cons c cs => simp [findFrom]
  | cons c cs ih =>
    rw [List.infix_cons_iff, ← ih (i + 1)]
    by_cases h : pat.isPrefixOf (c :: cs) = true
    · have h1 : pat <+: c :: cs := List.isPrefixOf_iff_prefix.mp h
      simp [findFrom, h, h1]
    · have h1 : ¬ pat <+: c :: cs := fun e => h (List.isPrefixOf_iff_prefix.mpr e)
      simp [findFrom, h, h1]

theorem strFind_ne_none_iff (u pat : String) : strFind u pat ≠ none ↔ Contains u pat :=
  findFrom_ne_none_iff pat.data u.data 0

set_option maxRecDepth 100000 in
/-- C9: when the serving flag is true, `handleRequest` makes exactly one call for every URI:
`recvGet` iff the URI is `get`, `recvSet` iff `set`, `recvDelete` iff `delete`, `recvFence`
iff `fence`, `recvText` iff it is `text` or contains `/text`, `recvScreenshot` iff it contains
`/screenshot` and the text rule does not match, `recvQuery` iff it is `query`, and the
browser HTML form otherwise. The branch taken is characterised by the URI, and in each
branch the outcome of `handleRequest` is the outcome of that handler on the same request. -/
theorem dispatch_routes (u : String) :
    (dispatch u = Target.recvGet ↔ u = "get") ∧
    (dispatch u = Target.recvSet ↔ u = "set") ∧
    (dispatch u = Target.recvDelete ↔ u = "delete") ∧
    (dispatch u = Target.recvFence ↔ u = "fence") ∧
    (dispatch u = Target.recvText ↔ (u = "text" ∨ Contains u "/text")) ∧
    (dispatch u = Target.recvScreenshot ↔
      (Contains u "/screenshot" ∧ ¬ (u = "text" ∨ Contains u "/text"))) ∧
    (dispatch u = Target.recvQuery ↔ u = "query") ∧
    (dispatch u = Target.form ↔
      ¬ (u = "get" ∨ u = "set" ∨ u = "delete" ∨ u = "fence" ∨ u = "text" ∨
        Contains u "/text" ∨ Contains u "/screenshot" ∨ u = "query")) ∧
    (∀ (codec : Codec) (s : Server) (request : Request) (env : WaitEnv),
      request.uri = u → s.m_serving = true →
      (u = "get" → handleRequest codec s request env = s.recvGet codec request env) ∧
      (u = "set" → handleRequest codec s request env = s.recvSet codec request) ∧
      (u = "delete" → handleRequest codec s request env = s.recvDelete codec request) ∧
      (u = "fence" → handleRequest codec s request env = s.recvFence codec request env) ∧
      ((u = "text" ∨ Contains u "/text") →
        handleRequest codec s request env = s.recvText codec request) ∧
      ((Contains u "/screenshot" ∧ ¬ (u = "text" ∨ Contains u "/text")) →
        handleRequest codec s request env = s.recvScreenshot codec request env) ∧
      (u = "query" → handleRequest codec s request env = s.recvQuery codec request env) ∧
      (¬ (u = "get" ∨ u = "set" ∨ u = "delete" ∨ u = "fence" ∨ u = "text" ∨
          Contains u "/text" ∨ Contains u "/screenshot" ∨ u = "query") →
        (handleRequest codec s request env).server = s ∧
        (handleRequest codec s request env).trace = [] ∧
        (handleRequest codec s request env).response
          = { headers := [("Cache-Control", "no-store, must-revalidate")]
              contentType := some "text/html"
              contentLength := some 245
              body := Payload.bytes "<!DOCTYPE html><html><meta charset=\"UTF-8\"><title>MeshSync Server</title><body><div><img src=\"screenshot\"></div><form action=\"/text\" method=\"post\">Message: <input type=\"text\" name=\"t\"><br><input type=\"submit\" value=\"Submit\"></form></body></html>" })) := by
  have ht := strFind_ne_none_iff u "/text"
  have hs := strFind_ne_none_iff u "/screenshot"
  have iffs : (dispatch u = Target.recvGet ↔ u = "get") ∧
      (dispatch u = Target.recvSet ↔ u = "set") ∧
      (dispatch u = Target.recvDelete ↔ u = "delete") ∧
      (dispatch u = Target.recvFence ↔ u = "fence") ∧
      (dispatch u = Target.recvText ↔ (u = "text" ∨ Contains u "/text")) ∧
      (dispatch u = Target.recvScreenshot ↔
        (Contains u "/screenshot" ∧ ¬ (u = "text" ∨ Contains u "/text"))) ∧
      (dispatch u = Target.recvQuery ↔ u = "query") ∧
      (dispatch u = Target.form ↔
        ¬ (u = "get" ∨ u = "set" ∨ u = "delete" ∨ u = "fence" ∨ u = "text" ∨
          Contains u "/text" ∨ Contains u "/screenshot" ∨ u = "query")) := by
    refine ⟨?_, ?_, ?_, ?_, ?_, ?_, ?_, ?_⟩
    all_goals
      rw [← ht] at *
      rw [← hs] at *
      clear ht hs
      unfold dispatch
      by_cases h1 : u = "get"
      · subst h1; decide
      by_cases h2 : u = "set"
      · subst h2; decide
      by_cases h3 : u = "delete"
      · subst h3; decide
      by_cases h4 : u = "fence"
      · subst h4; decide
      by_cases h7 : u = "query"
      · subst h7; decide
      by_cases h5 : u = "text"
      · subst h5; decide
      by_cases h6 : strFind u "/text" ≠ none
      · simp [h1, h2, h3, h4, h5, h6, h7]
      by_cases h8 : strFind u "/screenshot" ≠ none
      · simp [h1, h2, h3, h4, h5, h6, h7, h8]
      · simp [h1, h2, h3, h4, h5, h6, h7, h8]
  obtain ⟨i1, i2, i3, i4, i5, i6, i7, i8⟩ := iffs
  refine ⟨i1, i2, i3, i4, i5, i6, i7, i8, ?_⟩
  intro codec s request env hu hserv
  have hrun : handleRequest codec s request env = (dispatch u).run codec s request env := by
    simp [handleRequest, Server.isServing, hserv, hu]
  refine ⟨?_, ?_, ?_, ?_, ?_, ?_, ?_, ?_⟩
  · intro h; rw [hrun, i1.mpr h]; rfl
  · intro h; rw [hrun, i2.mpr h]; rfl
  · intro h; rw [hrun, i3.mpr h]; rfl
  · intro h; rw [hrun, i4.mpr h]; rfl
  · intro h; rw [hrun, i5.mpr h]; rfl
  · intro h; rw [hrun, i6.mpr h]; rfl
  · intro h; rw [hrun, i7.mpr h]; rfl
  · intro h
    rw [hrun, i8.mpr h]
    refine ⟨rfl, rfl, ?_⟩
    show RespondTextForm "" = _
    decide

/-- C9 at concrete inputs: on a serving server a request with URI `get` is handled by
`recvGet`, and a browser path with `/text` goes to `recvText`. -/
theorem dispatch_routes_witness :
    sampleServer.m_serving = true ∧
    dispatch "get" = Target.recvGet ∧
    dispatch "/text?t=hello" = Target.recvText ∧
    handleRequest sampleCodec sampleServer (post "get" "") timedOut
      = sampleServer.recvGet sampleCodec (post "get" "") timedOut :=
  ⟨rfl, (dispatch_routes "get").1.mpr rfl, by decide,
   ((dispatch_routes "get").2.2.2.2.2.2.2.2 sampleCodec sampleServer (post "get" "") timedOut
     rfl rfl).1 rfl⟩

/-! ## Bounded waits -/

theorem waitLoop_shape (reads : Nat → Int) (n i : Nat) :
    ∃ k, k ≤ n ∧ (∀ j, j < k → reads (i + j) ≠ 0) ∧
      ((k < n ∧ reads (i + k) = 0 ∧
          waitLoop reads n i = sleptPolls reads k i ++ [Event.poll 0]) ∨
       (k = n ∧ waitLoop reads n i = sleptPolls reads n i)) := by
  induction n generalizing i with
  | zero => exact ⟨0, le_refl _, fun j hj => absurd hj (Nat.not_lt_zero j), Or.inr ⟨rfl, rfl⟩⟩
  | succ n ih =>
    by_cases h0 : reads i = 0
    · refine ⟨0, Nat.zero_le _, fun j hj => absurd hj (Nat.not_lt_zero j), Or.inl ⟨Nat.succ_pos n, ?_, ?_⟩⟩
      · simpa using h0
      · simp [waitLoop, h0, sleptPolls]
    · obtain ⟨k, hk, hne, hshape⟩ := ih (i + 1)
      refine ⟨k + 1, Nat.succ_le_succ hk, ?_, ?_⟩
      · intro j hj
        cases j with
        | zero => simpa using h0
        | succ j =>
          have := hne j (Nat.lt_of_succ_lt_succ hj)
          rwa [show i + 1 + j = i + (j + 1) by omega] at this
      · rcases hshape with ⟨hlt, hz, htr⟩ | ⟨heq, htr⟩
        · refine Or.inl ⟨Nat.succ_lt_succ hlt, ?_, ?_⟩
          · rwa [show i + 1 + k = i + (k + 1) by omega] at hz
          · simp [waitLoop, h0, sleptPolls, htr]
        · refine Or.inr ⟨by rw [heq], ?_⟩
          simp [waitLoop, h0, sleptPolls, htr]

theorem waitLoop_all_nonzero (reads : Nat → Int) (n i : Nat)
    (h : ∀ j, j < n → reads (i + j) ≠ 0) : waitLoop reads n i = sleptPolls reads n i := by
  induction n generalizing i with
  | zero => rfl
  | succ n ih =>
    have h0 : reads i ≠ 0 := by simpa using h 0 (Nat.succ_pos n)
    have hrest : ∀ j, j < n → reads (i + 1 + j) ≠ 0 := by
      intro j hj
      have := h (j + 1) (Nat.succ_lt_succ hj)
      rwa [show i + (j + 1) = i + 1 + j by omega] at this
    simp [waitLoop, h0, sleptPolls, ih (i + 1) hrest]

/-! ## The fence: claims C7 and C8 -/

theorem fenceCount_single_le (codec : Codec) (t : FenceType) (a : Arrival) :
    fenceCount codec t [a] ≤ 1 := by
  simp only [fenceCount]
  exact (List.countP_le_length _).trans (by simp)

theorem recvFence_request_count (codec : Codec) (s : Server) (a : Arrival)
    (hlo : -2147483648 ≤ s.m_request_count - 1) (hhi : s.m_request_count + 1 ≤ 2147483647) :
    (s.recvFence codec a.request a.env).server.m_request_count
      = s.m_request_count + (fenceCount codec FenceType.SceneBegin [a] : Int)
          - (fenceCount codec FenceType.SceneEnd [a] : Int) := by
  have hinc : toInt32 (s.m_request_count + 1) = s.m_request_count + 1 :=
    toInt32_of_range _ (by omega) hhi
  have hdec : toInt32 (s.m_request_count - 1) = s.m_request_count - 1 :=
    toInt32_of_range _ hlo (by omega)
  by_cases hok : (codec.fenceMessage a.request.stream).1 = true
  · by_cases hb : (codec.fenceMessage a.request.stream).2.type = FenceType.SceneBegin
    · simp [Server.recvFence, hok, hb, fenceCount, Server.queueMessage, hinc]
    · by_cases he : (codec.fenceMessage a.request.stream).2.type = FenceType.SceneEnd
      · simp [Server.recvFence, hok, he, fenceCount, Server.queueMessage, Arrival.env, hdec]
      · simp [Server.recvFence, hok, hb, he, fenceCount, Server.queueMessage]
  · have hok1 : (codec.fenceMessage a.request.stream).1 = false := by simpa using hok
    simp [Server.recvFence, hok1, fenceCount, versionNotMatched,
      Server.queueVersionNotMatchedMessage]

theorem fenceCount_cons (codec : Codec) (t : FenceType) (a : Arrival) (rest : List Arrival) :
    fenceCount codec t (a :: rest) = fenceCount codec t [a] + fenceCount codec t rest := by
  simp only [fenceCount, List.countP_cons, List.countP_nil]
  omega

theorem fenceRun_request_count (codec : Codec) (arrivals : List Arrival) (s : Server)
    (hlo : -2147483648 ≤ s.m_request_count - (arrivals.length : Int))
    (hhi : s.m_request_count + (arrivals.length : Int) ≤ 2147483647) :
    (fenceRun codec s arrivals).m_request_count
      = s.m_request_count + (fenceCount codec FenceType.SceneBegin arrivals : Int)
          - (fenceCount codec FenceType.SceneEnd arrivals : Int) := by
  induction arrivals generalizing s with
  | nil => simp [fenceRun, fenceCount]
  | cons a rest ih =>
    simp only [List.length_cons, Nat.cast_add, Nat.cast_one] at hlo hhi
    have h2 := recvFence_request_count codec s a (by omega) (by omega)
    have hb := fenceCount_single_le codec FenceType.SceneBegin a
    have he := fenceCount_single_le codec FenceType.SceneEnd a
    have h1 := ih (s.recvFence codec a.request a.env).server (by rw [h2]; omega)
      (by rw [h2]; omega)
    rw [fenceCount_cons codec FenceType.SceneBegin a rest,
      fenceCount_cons codec FenceType.SceneEnd a rest]
    simp only [fenceRun, List.foldl_cons] at h1 ⊢
    rw [h1, h2]
    push_cast
    ring

/-- C7 as stated fails: from a fresh server (request counter 0), one successfully
deserialized SceneEnd fence leaves the request counter at -1. -/
theorem request_count_negative :
    sampleServer.m_request_count = 0 ∧
    sampleCodec.fenceMessage "1E" = (true, { type := FenceType.SceneEnd }) ∧
    (fenceRun sampleCodec sampleServer
      [{ request := post "fence" "1E", reads := fun _ => 0, slot := id }]).m_request_count = -1 := by
  refine ⟨rfl, by decide, by decide⟩

/-- C7, amended: in every state reached from a state with request counter 0 by a sequence
of fewer than 2^31 Fence requests (so that the 32-bit counter cannot wrap around), the
request counter equals the number of successfully deserialized SceneBegin fences minus the
number of successfully deserialized SceneEnd fences of the sequence; so it is ≥ 0 exactly
when the SceneEnd fences do not outnumber the SceneBegin fences. -/
theorem request_count_balance (codec : Codec) (s : Server) (arrivals : List Arrival)
    (h0 : s.m_request_count = 0) (hlen : arrivals.length < 2147483648) :
    (fenceRun codec s arrivals).m_request_count
      = (fenceCount codec FenceType.SceneBegin arrivals : Int)
          - (fenceCount codec FenceType.SceneEnd arrivals : Int) ∧
    (0 ≤ (fenceRun codec s arrivals).m_request_count ↔
      fenceCount codec FenceType.SceneEnd arrivals
        ≤ fenceCount codec FenceType.SceneBegin arrivals) := by
  have h := fenceRun_request_count codec arrivals s (by rw [h0]; omega) (by rw [h0]; omega)
  rw [h0] at h
  constructor
  · rw [h]; ring
  · rw [h]; omega

/-- C7, amended, at a concrete input: SceneBegin, SceneBegin, SceneEnd leaves the counter
at 1. -/
theorem request_count_balance_witness :
    sampleServer.m_request_count = 0 ∧
    [({ request := post "fence" "1B", reads := fun _ => 0, slot := id } : Arrival),
       { request := post "fence" "1B", reads := fun _ => 0, slot := id },
       { request := post "fence" "1E", reads := fun _ => 0, slot := id }].length < 2147483648 ∧
    (fenceRun sampleCodec sampleServer
      [{ request := post "fence" "1B", reads := fun _ => 0, slot := id },
       { request := post "fence" "1B", reads := fun _ => 0, slot := id },
       { request := post "fence" "1E", reads := fun _ => 0, slot := id }]).m_request_count
      = ((2 : Nat) : Int) - ((1 : Nat) : Int) :=
  ⟨rfl, by decide,
   (request_count_balance sampleCodec sampleServer
      [{ request := post "fence" "1B", reads := fun _ => 0, slot := id },
       { request := post "fence" "1B", reads := fun _ => 0, slot := id },
       { request := post "fence" "1E", reads := fun _ => 0, slot := id }] rfl (by decide)).1⟩

/-- C8: for every successfully deserialized SceneEnd fence and every sequence of values the
request counter shows to the polls, `recvFence` first decrements the counter (the `--` of a
32-bit atomic: the counter minus one, unless it stood at -2^31), then polls: either some
poll `k < 500` reads 0 after `k` polls that read non-zero and were each followed by a 10 ms
sleep, or all 500 polls read non-zero and were each followed by a 10 ms sleep; only then, as
its last step, it appends the fence to the receive history, once; it responds with the
`text/plain` body "ok", Content-Length 2. -/
theorem recvFence_sceneEnd_barrier (codec : Codec) (s : Server) (request : Request)
    (env : WaitEnv) (mes : FenceMessage)
    (hok : codec.fenceMessage request.stream = (true, mes))
    (hend : mes.type = FenceType.SceneEnd) :
    (∃ k, k ≤ 500 ∧ (∀ j, j < k → env.reads j ≠ 0) ∧
      ((k < 500 ∧ env.reads k = 0 ∧
          (s.recvFence codec request env).trace
            = Event.decr :: (sleptPolls env.reads k 0
                ++ [Event.poll 0, Event.enqueue (Message.fence mes)])) ∨
       (k = 500 ∧
          (s.recvFence codec request env).trace
            = Event.decr :: (sleptPolls env.reads 500 0
                ++ [Event.enqueue (Message.fence mes)])))) ∧
    (s.recvFence codec request env).server
      = (env.host { s with m_request_count := toInt32 (s.m_request_count - 1) }).queueMessage
          (Message.fence mes) ∧
    (-2147483648 < s.m_request_count → s.m_request_count ≤ 2147483647 →
      toInt32 (s.m_request_count - 1) = s.m_request_count - 1) ∧
    (s.recvFence codec request env).server.m_recv_history
      = (env.host { s with m_request_count := toInt32 (s.m_request_count - 1) }).m_recv_history
          ++ [Message.fence mes] ∧
    (s.recvFence codec request env).response.contentType = some "text/plain" ∧
    (s.recvFence codec request env).response.contentLength = some 2 ∧
    (s.recvFence codec request env).response.body = Payload.bytes "ok" ∧
    (s.recvFence codec request env).response.headers = [] := by
  have hne : mes.type ≠ FenceType.SceneBegin := by rw [hend]; decide
  have htrace : (s.recvFence codec request env).trace
      = Event.decr :: (waitLoop env.reads 500 0 ++ [Event.enqueue (Message.fence mes)]) := by
    simp [Server.recvFence, hok, hend]
  have hresp : (s.recvFence codec request env).response = RespondText "ok" := by
    simp [Server.recvFence, hok, hend]
  refine ⟨?_, ?_, ?_, ?_, ?_, ?_, ?_, ?_⟩
  · obtain ⟨k, hk, hnz, hshape⟩ := waitLoop_shape env.reads 500 0
    refine ⟨k, hk, fun j hj => by simpa using hnz j hj, ?_⟩
    rcases hshape with ⟨hlt, hz, htr⟩ | ⟨heq, htr⟩
    · refine Or.inl ⟨hlt, by simpa using hz, ?_⟩
      rw [htrace, htr]; simp
    · refine Or.inr ⟨heq, ?_⟩
      rw [htrace, htr]
  · simp [Server.recvFence, hok, hend]
  · intro h1 h2
    exact toInt32_of_range _ (by omega) (by omega)
  · simp [Server.recvFence, hok, hend, Server.queueMessage]
  · rw [hresp]; rfl
  · rw [hresp]; decide
  · rw [hresp]; rfl
  · rw [hresp]; rfl

/-- C8 at a concrete input: the counter reads 1, 1, 0; the handler decrements, polls three
times, sleeps twice and then queues the fence; the body of the response is "ok". -/
theorem recvFence_sceneEnd_barrier_witness :
    sampleCodec.fenceMessage (post "fence" "1E").stream = (true, { type := FenceType.SceneEnd }) ∧
    (sampleServer.recvFence sampleCodec (post "fence" "1E")
      { reads := fun i => if i < 2 then 1 else 0, host := id, slot := id }).trace
      = [Event.decr, Event.poll 1, Event.sleep 10, Event.poll 1, Event.sleep 10, Event.poll 0,
         Event.enqueue (Message.fence { type := FenceType.SceneEnd })] ∧
    (sampleServer.recvFence sampleCodec (post "fence" "1E")
      { reads := fun i => if i < 2 then 1 else 0, host := id, slot := id }).server.m_request_count
      = -1 ∧
    (sampleServer.recvFence sampleCodec (post "fence" "1E")
      { reads := fun i => if i < 2 then 1 else 0, host := id, slot := id }).response.body
      = Payload.bytes "ok" :=
  ⟨by decide, by decide, by decide,
   (recvFence_sceneEnd_barrier sampleCodec sampleServer (post "fence" "1E")
      { reads := fun i => if i < 2 then 1 else 0, host := id, slot := id }
      { type := FenceType.SceneEnd } (by decide) rfl).2.2.2.2.2.2.1⟩

/-! ## A Get that times out: claim C6 -/

/-- C6 as stated fails when a host scene is still stored: a first Get is served by the host
(scene with `/cube`), a second Get deserializes and no poll ever clears its wait flag; its
response is the stored scene, 6 bytes long, not an empty body with Content-Length 0. -/
theorem stale_scene_on_timeout :
    (sampleCodec.getMessage (post "get" "1").stream).1 = true ∧
    (∀ i, i < 300 → timedOut.reads i = 1) ∧
    (sampleServer.recvGet sampleCodec (post "get" "1") served).server.m_host_scene ≠ none ∧
    ((sampleServer.recvGet sampleCodec (post "get" "1") served).server.recvGet sampleCodec
      (post "get" "1") timedOut).response.contentLength = some 6 ∧
    ((sampleServer.recvGet sampleCodec (post "get" "1") served).server.recvGet sampleCodec
      (post "get" "1") timedOut).response.body = Payload.bytes "S/cube" := by
  refine ⟨by decide, fun _ _ => rfl, by with_unfolding_all decide, by with_unfolding_all decide,
    by with_unfolding_all decide⟩

/-- C6, amended: if a Get request deserializes successfully and all 300 polls of its wait
flag read 1, `recvGet` queues the request, polls 300 times with a 10 ms sleep after each
poll, and then responds with an empty body and Content-Length 0 provided no host scene is
stored in the server at that moment; when a host scene is stored, the response is that
scene serialized, with its serialized size as Content-Length. -/
theorem recvGet_timeout (codec : Codec) (s : Server) (request : Request) (env : WaitEnv)
    (hok : (codec.getMessage request.stream).1 = true)
    (hwait : ∀ i, i < 300 → env.reads i = 1) :
    (s.recvGet codec request env).trace
      = Event.enqueue (Message.get { (codec.getMessage request.stream).2 with wait_flag := some 1 })
          :: sleptPolls env.reads 300 0 ∧
    (s.recvGet codec request env).server
      = env.host (s.queueMessage
          (Message.get { (codec.getMessage request.stream).2 with wait_flag := some 1 })) ∧
    ((s.recvGet codec request env).server.m_host_scene = none →
      (s.recvGet codec request env).response
        = { headers := [], contentType := none, contentLength := some 0,
            body := Payload.bytes "" }) ∧
    (∀ scene, (s.recvGet codec request env).server.m_host_scene = some scene →
      (s.recvGet codec request env).response
        = { headers := [], contentType := some "application/octet-stream",
            contentLength := some (codec.sceneSize scene),
            body := Payload.bytes (codec.sceneBytes scene) }) := by
  have hloop : waitLoop env.reads 300 0 = sleptPolls env.reads 300 0 := by
    apply waitLoop_all_nonzero
    intro j hj
    rw [Nat.zero_add, hwait j hj]
    decide
  cases hsc : (env.host (s.queueMessage (Message.get
      { (codec.getMessage request.stream).2 with wait_flag := some 1 }))).m_host_scene with
  | none =>
    simp only [] at hsc
    simp [Server.recvGet, hok, hsc, hloop]
  | some scene =>
    simp only [] at hsc
    simp [Server.recvGet, hok, hsc, hloop]

/-- C6, amended, at a concrete input: a Get on a fresh server whose wait flag is never
cleared gets an empty body with Content-Length 0. -/
theorem recvGet_timeout_witness :
    (sampleCodec.getMessage (post "get" "1").stream).1 = true ∧
    (∀ i, i < 300 → timedOut.reads i = 1) ∧
    (sampleServer.recvGet sampleCodec (post "get" "1") timedOut).server.m_host_scene = none ∧
    (sampleServer.recvGet sampleCodec (post "get" "1") timedOut).response
      = { headers := [], contentType := none, contentLength := some 0,
          body := Payload.bytes "" } :=
  ⟨by decide, fun _ _ => rfl, by decide,
   (recvGet_timeout sampleCodec sampleServer (post "get" "1") timedOut (by decide)
      (fun _ _ => rfl)).2.2.1 (by decide)⟩

/-! ## Set then poll: claim C1 -/

theorem objectAt_ne_none (p : String) (objs : List Transform) (acc : Option Transform)
    (h : acc ≠ none) : objectAt p acc objs ≠ none := by
  induction objs generalizing acc with
  | nil => exact h
  | cons o rest ih =>
    simp only [objectAt, List.foldl_cons]
    apply ih
    split
    · simp
    · exact h

theorem objectAt_of_mem (p : String) (objs : List Transform) (acc acc1 : Option Transform)
    (obj : Transform) (hmem : obj ∈ objs) (hp : obj.path = p) :
    objectAt p acc objs = objectAt p acc1 objs ∧ objectAt p acc objs ≠ none := by
  induction objs generalizing acc acc1 with
  | nil => cases hmem
  | cons o rest ih =>
    simp only [objectAt, List.foldl_cons]
    by_cases ho : o.path = p
    · rw [if_pos ho, if_pos ho]
      exact ⟨rfl, objectAt_ne_none p rest (some o) (by simp)⟩
    · rw [if_neg ho, if_neg ho]
      rcases List.mem_cons.mp hmem with h | h
      · exact absurd (h ▸ hp) ho
      · exact ih acc acc1 h

theorem find_foldl_assign (p : String) (objs : List Transform) (d : List (String × Transform)) :
    ClientObjs.find (objs.foldl (fun d obj => ClientObjs.assign d obj.path obj) d) p
      = objectAt p (ClientObjs.find d p) objs := by
  induction objs generalizing d with
  | nil => rfl
  | cons o rest ih =>
    simp only [List.foldl_cons, objectAt]
    rw [ih]
    by_cases ho : o.path = p
    · subst ho
      simp [objectAt, ClientObjs.find_assign_self]
    · have hne : p ≠ o.path := fun e => ho e.symm
      simp [objectAt, ClientObjs.find_assign_ne d o.path p o hne, ho]

theorem lastSetObject_append (history : List Message) (m : Message) (p : String) :
    lastSetObject (history ++ [m]) p = lastSetStep p (lastSetObject history p) m := by
  simp [lastSetObject, List.foldl_append]

theorem tracked_commitSet (s : Server) (mes : SetMessage) (p : String) (h : Tracked s p) :
    Tracked (s.commitSet mes) p := by
  obtain ⟨h1, h2⟩ := h
  simp only [Tracked, Server.commitSet, lastSetObject_append, lastSetStep, find_foldl_assign]
  exact ⟨by rw [h1], objectAt_ne_none p _ _ h2⟩

theorem tracked_commitSet_new (s : Server) (mes : SetMessage) (obj : Transform)
    (hmem : obj ∈ mes.scene.objects) : Tracked (s.commitSet mes) obj.path := by
  simp only [Tracked, Server.commitSet, lastSetObject_append, lastSetStep, find_foldl_assign]
  have h := objectAt_of_mem obj.path mes.scene.objects
    (ClientObjs.find s.m_client_objs obj.path) (lastSetObject s.m_recv_history obj.path)
    obj hmem rfl
  exact ⟨h.1, h.1 ▸ h.2⟩

theorem tracked_queue (s s1 : Server) (m : Message) (p : String) (h : Tracked s p)
    (hm : ∀ mes, m ≠ Message.set mes) (hd : s1.m_client_objs = s.m_client_objs)
    (hh : s1.m_recv_history = s.m_recv_history ++ [m]) : Tracked s1 p := by
  obtain ⟨h1, h2⟩ := h
  have hstep : lastSetStep p (lastSetObject s.m_recv_history p) m
      = lastSetObject s.m_recv_history p := by
    cases m with
    | set mes => exact absurd rfl (hm mes)
    | get _ => rfl
    | delete _ => rfl
    | fence _ => rfl
    | text _ => rfl
    | screenshot _ => rfl
    | query _ => rfl
  simp only [Tracked, hd, hh, lastSetObject_append, hstep]
  exact ⟨h1, h2⟩

theorem recvSetObject_path (codec : Codec) (settings : ServerSettings) (scene : SceneSettings)
    (swap_x swap_yz : Bool) (obj : Transform) :
    (recvSetObject codec settings scene swap_x swap_yz obj).path = obj.path := by
  simp only [recvSetObject]
  split <;> rfl

theorem versionNotMatched_tracked (s : Server) (p : String) (h : Tracked s p) :
    Tracked (versionNotMatched s).server p :=
  tracked_queue s _ versionError p h (by intro mes; simp [versionError]) rfl rfl

theorem recvSet_tracked (codec : Codec) (s : Server) (request : Request) (p : String)
    (h : Tracked s p) : Tracked (s.recvSet codec request).server p := by
  unfold Server.recvSet
  simp only [RecvSceneScope.enter, RecvSceneScope.leave]
  split
  · exact versionNotMatched_tracked s p h
  · exact tracked_commitSet s _ p h

theorem recvDelete_tracked (codec : Codec) (s : Server) (request : Request) (p : String)
    (h : Tracked s p) : Tracked (s.recvDelete codec request).server p := by
  unfold Server.recvDelete
  simp only [RecvSceneScope.enter, RecvSceneScope.leave]
  split
  · exact versionNotMatched_tracked s p h
  · exact tracked_queue s _ (Message.delete _) p h (by intro mes; simp) rfl rfl

theorem recvFence_tracked (codec : Codec) (s : Server) (a : Arrival) (p : String)
    (h : Tracked s p) : Tracked (s.recvFence codec a.request a.env).server p := by
  unfold Server.recvFence
  simp only [Arrival.env, id]
  split
  · exact versionNotMatched_tracked s p h
  · split
    · exact tracked_queue s _ (Message.fence _) p h (by intro mes; simp) rfl rfl
    · split
      · exact tracked_queue s _ (Message.fence _) p h (by intro mes; simp) rfl rfl
      · exact tracked_queue s _ (Message.fence _) p h (by intro mes; simp) rfl rfl

theorem recvText_tracked (codec : Codec) (s : Server) (request : Request) (p : String)
    (h : Tracked s p) : Tracked (s.recvText codec request).server p := by
  unfold Server.recvText
  simp only []
  split
  · exact tracked_queue s _ (Message.text _) p h (by intro mes; simp) rfl rfl
  · exact h

theorem recvGet_tracked (codec : Codec) (s : Server) (a : Arrival) (p : String)
    (h : Tracked s p) : Tracked (s.recvGet codec a.request a.env).server p := by
  unfold Server.recvGet
  simp only [Arrival.env, id]
  split
  · exact versionNotMatched_tracked s p h
  · split
    · exact tracked_queue s _ (Message.get _) p h (by intro mes; simp) rfl rfl
    · exact tracked_queue s _ (Message.get _) p h (by intro mes; simp) rfl rfl

theorem recvScreenshot_tracked (codec : Codec) (s : Server) (a : Arrival) (p : String)
    (h : Tracked s p) : Tracked (s.recvScreenshot codec a.request a.env).server p := by
  unfold Server.recvScreenshot
  simp only [Arrival.env, id]
  exact tracked_queue s _ (Message.screenshot _) p h (by intro mes; simp) rfl rfl

theorem lastSetObject_resetResponse (mes : QueryMessage) (history : List Message)
    (p : String) : lastSetObject (resetResponse mes history) p = lastSetObject history p := by
  have key : ∀ acc : Option Transform,
      (resetResponse mes history).foldl (lastSetStep p) acc
        = history.foldl (lastSetStep p) acc := by
    induction history with
    | nil => intro acc; rfl
    | cons m rest ih =>
      intro acc
      simp only [resetResponse, List.map_cons, List.foldl_cons]
      have hstep : lastSetStep p acc
          (if m = Message.query mes then Message.query { mes with response := none } else m)
          = lastSetStep p acc m := by
        split
        · rename_i hm; subst hm; rfl
        · rfl
      rw [hstep]
      exact ih _
  exact key none

theorem mem_resetResponse_set (mes : QueryMessage) (history : List Message) (sm : SetMessage)
    (h : Message.set sm ∈ history) : Message.set sm ∈ resetResponse mes history := by
  simp only [resetResponse, List.mem_map]
  exact ⟨Message.set sm, h, by simp⟩

theorem mem_resetResponse_delete (mes : QueryMessage) (history : List Message)
    (del : DeleteMessage) :
    Message.delete del ∈ resetResponse mes history ↔ Message.delete del ∈ history := by
  simp only [resetResponse, List.mem_map]
  constructor
  · rintro ⟨m, hm, heq⟩
    split at heq
    · cases heq
    · rw [← heq]; exact hm
  · intro h
    exact ⟨Message.delete del, h, by simp⟩

theorem recvQuery_tracked (codec : Codec) (s : Server) (a : Arrival) (p : String)
    (h : Tracked s p) : Tracked (s.recvQuery codec a.request a.env).server p := by
  have hq : Tracked (s.queueMessage (Message.query
      { (codec.queryMessage a.request.stream).2 with
        wait_flag := some 1, response := some { data := "" } })) p :=
    tracked_queue s _ (Message.query _) p h (by intro mes; simp) rfl rfl
  unfold Server.recvQuery
  simp only [Arrival.env, id]
  split
  · simp only [Tracked, lastSetObject_resetResponse]
    exact hq
  · exact hq

theorem handleRequest_tracked (codec : Codec) (s : Server) (a : Arrival) (p : String)
    (h : Tracked s p) : Tracked (handleRequest codec s a.request a.env).server p := by
  unfold handleRequest
  split
  · exact h
  · cases dispatch a.request.uri with
    | recvGet => exact recvGet_tracked codec s a p h
    | recvSet => exact recvSet_tracked codec s a.request p h
    | recvDelete => exact recvDelete_tracked codec s a.request p h
    | recvFence => exact recvFence_tracked codec s a p h
    | recvText => exact recvText_tracked codec s a.request p h
    | recvScreenshot => exact recvScreenshot_tracked codec s a p h
    | recvQuery => exact recvQuery_tracked codec s a p h
    | form => exact h

theorem arriveAll_tracked (codec : Codec) (arrivals : List Arrival) (s : Server) (p : String)
    (h : Tracked s p) : Tracked (arriveAll codec s arrivals) p := by
  induction arrivals generalizing s with
  | nil => exact h
  | cons a rest ih => exact ih _ (handleRequest_tracked codec s a p h)

theorem objectAt_path (p : String) (objs : List Transform) (acc : Option Transform)
    (hacc : ∀ o, acc = some o → o.path = p) :
    ∀ o, objectAt p acc objs = some o → o.path = p := by
  induction objs generalizing acc with
  | nil => exact hacc
  | cons x rest ih =>
    simp only [objectAt, List.foldl_cons]
    apply ih
    intro o ho
    by_cases hx : x.path = p
    · rw [if_pos hx] at ho
      cases ho
      exact hx
    · rw [if_neg hx] at ho
      exact hacc o ho

theorem lastSetObject_path (p : String) (history : List Message) :
    ∀ o, lastSetObject history p = some o → o.path = p := by
  have key : ∀ (acc : Option Transform), (∀ o, acc = some o → o.path = p) →
      ∀ o, history.foldl (lastSetStep p) acc = some o → o.path = p := by
    induction history with
    | nil => intro acc hacc; exact hacc
    | cons m rest ih =>
      intro acc hacc
      simp only [List.foldl_cons]
      apply ih
      cases m with
      | set mes => exact objectAt_path p mes.scene.objects acc hacc
      | get _ => exact hacc
      | delete _ => exact hacc
      | fence _ => exact hacc
      | text _ => exact hacc
      | screenshot _ => exact hacc
      | query _ => exact hacc
  exact key none (fun o ho => by cases ho)

theorem handleRequest_history_mem (codec : Codec) (s : Server) (a : Arrival)
    (sm : SetMessage) (h : Message.set sm ∈ s.m_recv_history) :
    Message.set sm ∈ (handleRequest codec s a.request a.env).server.m_recv_history := by
  have hq : ∀ v, Message.set sm ∈ (s.queueMessage v).m_recv_history := by
    intro v; simp [Server.queueMessage, h]
  have hv : Message.set sm ∈ (versionNotMatched s).server.m_recv_history := by
    simp [versionNotMatched, Server.queueVersionNotMatchedMessage, h]
  unfold handleRequest
  split
  · exact h
  · cases dispatch a.request.uri with
    | recvGet =>
      simp only [Target.run, Server.recvGet, Arrival.env, id]
      split
      · exact hv
      · split <;> exact hq _
    | recvSet =>
      simp only [Target.run, Server.recvSet, RecvSceneScope.enter, RecvSceneScope.leave]
      split
      · exact hv
      · simp [Server.commitSet, h]
    | recvDelete =>
      simp only [Target.run, Server.recvDelete, RecvSceneScope.enter, RecvSceneScope.leave]
      split
      · exact hv
      · exact hq _
    | recvFence =>
      simp only [Target.run, Server.recvFence, Arrival.env, id]
      split
      · exact hv
      · split
        · simp [Server.queueMessage, h]
        · split
          · simp [Server.queueMessage, h]
          · exact hq _
    | recvText =>
      simp only [Target.run, Server.recvText]
      split
      · exact hq _
      · exact h
    | recvScreenshot =>
      simp only [Target.run, Server.recvScreenshot, Arrival.env, id]
      exact hq _
    | recvQuery =>
      simp only [Target.run, Server.recvQuery, Arrival.env, id]
      split
      · exact mem_resetResponse_set _ _ sm (hq _)
      · exact hq _
    | form => exact h

theorem arriveAll_history_mem (codec : Codec) (arrivals : List Arrival) (s : Server)
    (sm : SetMessage) (h : Message.set sm ∈ s.m_recv_history) :
    Message.set sm ∈ (arriveAll codec s arrivals).m_recv_history := by
  induction arrivals generalizing s with
  | nil => exact h
  | cons a rest ih => exact ih _ (handleRequest_history_mem codec s a sm h)

/-- C1 as stated fails: a Delete of `/cube` is queued, then a Set with an object `/cube` is
received by `recvSet`; after the next poll `/cube` is not a key of the entity directory.
The same happens when the Delete is queued after the Set and before the poll. -/
theorem recvSet_then_poll_loses_path :
    (sampleCodec.setMessage (post "set" "1/cube").stream).1 = true ∧
    (normalizeSet sampleCodec sampleServer.m_settings
      (sampleCodec.setMessage (post "set" "1/cube").stream).2).scene.objects.map
        (fun o : Transform => o.path) = ["/cube"] ∧
    ClientObjs.find
      (((sampleServer.recvDelete sampleCodec (post "delete" "1/cube")).server.recvSet sampleCodec
        (post "set" "1/cube")).server.processMessages idleHandler).server.m_client_objs
      "/cube" = none ∧
    ClientObjs.find
      ((arriveAll sampleCodec (sampleServer.recvSet sampleCodec (post "set" "1/cube")).server
        [{ request := post "delete" "1/cube", reads := fun _ => 0, slot := id }]).processMessages
          idleHandler).server.m_client_objs
      "/cube" = none := by
  refine ⟨by decide, by with_unfolding_all decide, by with_unfolding_all decide,
    by with_unfolding_all decide⟩

/-- C1, amended: for every server state and every Set message that deserializes successfully
and is received by `recvSet`, whatever requests are handled between it and the next poll:
after that poll returns, every object path of the message that no Delete message in the
drained receive history targets is a key of the entity directory and maps to the object
that the most recent Set message of that history reports for the path. -/
theorem recvSet_then_poll_directory (codec : Codec) (s : Server) (request : Request)
    (later : List Arrival) (handler : MessageHandler)
    (hok : (codec.setMessage request.stream).1 = true)
    (obj : Transform)
    (hobj : obj ∈ (codec.setMessage request.stream).2.scene.objects)
    (hdel : ∀ del, Message.delete del ∈
        (arriveAll codec (s.recvSet codec request).server later).m_recv_history →
      ∀ t ∈ del.targets, t.path ≠ obj.path) :
    Message.set (normalizeSet codec s.m_settings (codec.setMessage request.stream).2) ∈
      (arriveAll codec (s.recvSet codec request).server later).m_recv_history ∧
    ∃ o, o.path = obj.path ∧
      lastSetObject (arriveAll codec (s.recvSet codec request).server later).m_recv_history
        obj.path = some o ∧
      ClientObjs.find
        ((arriveAll codec (s.recvSet codec request).server later).processMessages
          handler).server.m_client_objs obj.path = some o := by
  have hs1 : (s.recvSet codec request).server
      = s.commitSet (normalizeSet codec s.m_settings (codec.setMessage request.stream).2) := by
    simp [Server.recvSet, hok, RecvSceneScope.enter, RecvSceneScope.leave]
  have hobj1 : recvSetObject codec s.m_settings (codec.setMessage request.stream).2.scene.settings
      (decide ((codec.setMessage request.stream).2.scene.settings.handedness = Handedness.Right) ||
        decide ((codec.setMessage request.stream).2.scene.settings.handedness
          = Handedness.RightZUp))
      (decide ((codec.setMessage request.stream).2.scene.settings.handedness
          = Handedness.LeftZUp) ||
        decide ((codec.setMessage request.stream).2.scene.settings.handedness
          = Handedness.RightZUp)) obj
      ∈ (normalizeSet codec s.m_settings (codec.setMessage request.stream).2).scene.objects :=
    List.mem_map_of_mem _ hobj
  have ht1 : Tracked (s.recvSet codec request).server obj.path := by
    rw [hs1]
    have h := tracked_commitSet_new s _ _ hobj1
    rwa [recvSetObject_path] at h
  have ht2 := arriveAll_tracked codec later _ obj.path ht1
  have hkeep := processLoop_find_keep handler
    (arriveAll codec (s.recvSet codec request).server later).m_recv_history
    (arriveAll codec (s.recvSet codec request).server later) handler.init obj.path hdel
  refine ⟨?_, ?_⟩
  · apply arriveAll_history_mem
    rw [hs1]; simp [Server.commitSet]
  obtain ⟨hfind, hsome⟩ := ht2
  cases hlast : lastSetObject
      (arriveAll codec (s.recvSet codec request).server later).m_recv_history obj.path with
  | none => exact absurd hlast hsome
  | some o =>
    refine ⟨o, lastSetObject_path obj.path _ o hlast, rfl, ?_⟩
    simp only [Server.processMessages]
    rw [hkeep, hfind, hlast]

/-- C1, amended, at a concrete input: Set `/cube`, then a Delete of `/other` before the poll;
after the poll the directory maps `/cube` to the object of the Set message. -/
theorem recvSet_then_poll_directory_witness :
    (sampleCodec.setMessage (post "set" "1/cube").stream).1 = true ∧
    wireCube ∈ (sampleCodec.setMessage (post "set" "1/cube").stream).2.scene.objects ∧
    ClientObjs.find
      ((arriveAll sampleCodec (sampleServer.recvSet sampleCodec (post "set" "1/cube")).server
        [{ request := post "delete" "1/other", reads := fun _ => 0, slot := id }]).processMessages
          idleHandler).server.m_client_objs "/cube" = some sampleCube := by
  have hobj : wireCube ∈ (sampleCodec.setMessage (post "set" "1/cube").stream).2.scene.objects := by
    with_unfolding_all decide
  have hhist : (arriveAll sampleCodec
      (sampleServer.recvSet sampleCodec (post "set" "1/cube")).server
      [{ request := post "delete" "1/other", reads := fun _ => 0, slot := id }]).m_recv_history
      = [Message.set (normalizeSet sampleCodec sampleServer.m_settings
          (sampleCodec.setMessage (post "set" "1/cube").stream).2),
         Message.delete { targets := [{ path := "/other" }] }] := by
    with_unfolding_all decide
  have hlast0 : lastSetObject (arriveAll sampleCodec
      (sampleServer.recvSet sampleCodec (post "set" "1/cube")).server
      [{ request := post "delete" "1/other", reads := fun _ => 0, slot := id }]).m_recv_history
      "/cube" = some sampleCube := by
    with_unfolding_all decide
  obtain ⟨_, o, _, hlast, hfind⟩ := recvSet_then_poll_directory sampleCodec sampleServer
    (post "set" "1/cube")
    [{ request := post "delete" "1/other", reads := fun _ => 0, slot := id }] idleHandler
    (by decide) wireCube hobj
    (by
      intro del hd t ht
      rw [hhist] at hd
      simp only [List.mem_cons, List.mem_singleton, Message.delete.injEq, List.not_mem_nil,
        or_false] at hd
      rcases hd with hd | hd
      · cases hd
      · subst hd
        simp only [List.mem_singleton] at ht
        subst ht
        decide)
  have hpath : wireCube.path = "/cube" := rfl
  rw [hpath] at hlast hfind
  rw [hlast0] at hlast
  exact ⟨by decide, hobj, by rw [hfind, ← hlast]⟩

end ms
